import Mathlib

/-!
# Verification development for the voice-agent backend

Shallow embedding of the Python backend of the voice-driven assistant
(`backend/main_agent_web.py`, `backend/vad_handler.py`,
`backend/conversation_orchestrator.py`, `backend/conversation_manager.py`,
`backend/axiom_brain.py`, `backend/minimal_safe_corrector.py`,
`backend/keyword_mapper.py`) together with proofs about the session state
machine, the VAD hysteresis, the router, the conversation window, the
generation fallback, the formatting corrector and the keyword mapper.

External collaborators (speech models, the vector index, the chat backend,
the template database, the file system) are modelled as oracle functions
supplied in an environment record, exactly at the call boundaries where the
source invokes them.  All code between those boundaries is translated
directly from the Python source.
-/

namespace VoiceAgent

/-! ## Websocket session state machine

From `backend/main_agent_web.py`, `websocket_endpoint` (lines 141-198).
The per-connection session state consists of the accumulated audio buffer,
the `is_speaking` flag and the `processing_lock` flag.  A received binary
frame is handled by the body of the `"bytes" in message` branch; the
awaited `process_speech` call is modelled as the interval between the
`speech_end` transition (which sets the lock) and a separate
pipeline-completion transition (lines 191-198, which clears the buffer,
releases the lock and emits `ready_to_listen`).
-/

/-- Raw audio chunk as received on the websocket (opaque payload bytes). -/
abbrev AudioChunk := List Int

/-- JSON / binary events the server sends to the client over the websocket. -/
inductive WsEvent where
  | speech_start
  | speech_end
  | ready_to_listen
  | thinking
  | trigger_card (card_index : Nat) (keyword : String) (product_name : String)
  | load_3d_model (model_path : String) (model_name : String)
  | speaking (text : String) (intent : String)
  | audio
  | idle
  | error_idle (msg : String)
  deriving DecidableEq, Repr

/-- Per-connection session state of `websocket_endpoint` (lines 141-145). -/
structure WsState where
  audio_buffer : List AudioChunk
  is_speaking : Bool
  processing_lock : Bool
  deriving DecidableEq, Repr

/-- Session state at connection time (lines 142-145). -/
def initialWsState : WsState := ⟨[], false, false⟩

/-- Handling of one received binary frame (lines 154-189).  `vad_is_speech`
is the boolean returned by `agent.vad.process_chunk` for this frame.  When
the processing lock is held the frame is dropped before the VAD is even
consulted (lines 160-162: `if processing_lock: continue`).  On a speech-end
transition the lock is acquired and the session enters the
locked-processing interval (completion is `ws_pipeline_complete`). -/
def ws_receive_bytes (s : WsState) (data : AudioChunk) (vad_is_speech : Bool) :
    WsState × List WsEvent :=
  if s.processing_lock then (s, [])
  else
    -- Speech started (lines 173-177)
    let s1 := if vad_is_speech && !s.is_speaking then
        { s with is_speaking := true, audio_buffer := [] }
      else s
    let ev1 : List WsEvent := if vad_is_speech && !s.is_speaking then [.speech_start] else []
    -- Accumulate audio during speech (lines 180-181)
    let s2 := if s1.is_speaking then { s1 with audio_buffer := s1.audio_buffer ++ [data] } else s1
    -- Speech ended (lines 184-188): lock and begin processing
    if !vad_is_speech && s2.is_speaking then
      ({ s2 with is_speaking := false, processing_lock := true }, ev1 ++ [.speech_end])
    else (s2, ev1)

/-- Completion of the awaited `process_speech` call (lines 191-198): the
buffer is cleared, the lock released and `ready_to_listen` emitted.  The
unlock only happens on the `if audio_buffer:` path; with an empty buffer the
lock is left in place, exactly as in the source. -/
def ws_pipeline_complete (s : WsState) : WsState × List WsEvent :=
  if s.processing_lock && !s.audio_buffer.isEmpty then
    ({ s with audio_buffer := [], processing_lock := false }, [.ready_to_listen])
  else (s, [])

/-! ## VAD hysteresis

From `backend/vad_handler.py`.  The recurrent ONNX model is external; its
per-frame output probability is the input of the hysteresis update
(lines 120-138).  Probabilities are modelled as rationals. -/

/-- Hysteresis state of `VadHandler` (lines 28, 52-59). -/
structure VadState where
  threshold : ℚ
  is_speech : Bool
  speech_frames : Nat
  silence_frames : Nat
  deriving DecidableEq, Repr

/-- `min_speech_frames` (line 58): 3 consecutive frames to trigger speech. -/
def min_speech_frames : Nat := 3

/-- `min_silence_frames` (line 59): 10 frames to end speech. -/
def min_silence_frames : Nat := 10

/-- State right after `VadHandler.reset` (lines 163-173). -/
def vadReset (threshold : ℚ) : VadState :=
  { threshold := threshold, is_speech := false, speech_frames := 0, silence_frames := 0 }

/-- Hysteresis update of `process_chunk` (lines 120-138) on one frame
probability: `if probability >= self.threshold` increment the speech
counter, reset the silence counter, and assert speech once the counter
reaches `min_speech_frames`; otherwise symmetrically with the silence
counter and `min_silence_frames`. -/
def process_chunk (s : VadState) (probability : ℚ) : VadState :=
  if s.threshold ≤ probability then
    let sf := s.speech_frames + 1
    { s with speech_frames := sf, silence_frames := 0,
             is_speech := if min_speech_frames ≤ sf then true else s.is_speech }
  else
    let nf := s.silence_frames + 1
    { s with silence_frames := nf, speech_frames := 0,
             is_speech := if min_silence_frames ≤ nf then false else s.is_speech }

/-- Feeding a sequence of frame probabilities after `reset()`. -/
def vadRun (threshold : ℚ) (ps : List ℚ) : VadState :=
  ps.foldl process_chunk (vadReset threshold)

theorem vadRun_append (threshold : ℚ) (ps : List ℚ) (p : ℚ) :
    vadRun threshold (ps ++ [p]) = process_chunk (vadRun threshold ps) p := by
  simp [vadRun, List.foldl_append]

theorem process_chunk_threshold (s : VadState) (p : ℚ) :
    (process_chunk s p).threshold = s.threshold := by
  unfold process_chunk
  split <;> rfl

theorem vadRun_threshold (threshold : ℚ) (ps : List ℚ) :
    (vadRun threshold ps).threshold = threshold := by
  induction ps using List.reverseRecOn with
  | nil => rfl
  | append_singleton ps p ih => rw [vadRun_append, process_chunk_threshold, ih]

/-- Invariant: the speech counter counts a trailing run of frames at/above
the threshold. -/
theorem vadRun_speech_suffix (threshold : ℚ) (ps : List ℚ) :
    (vadRun threshold ps).speech_frames ≤ ps.length ∧
      ∀ q ∈ ps.drop (ps.length - (vadRun threshold ps).speech_frames), threshold ≤ q := by
  induction ps using List.reverseRecOn with
  | nil => simp [vadRun, vadReset]
  | append_singleton ps p ih =>
    rw [vadRun_append]
    rcases ih with ⟨hlen, hmem⟩
    unfold process_chunk
    rw [vadRun_threshold]
    by_cases hp : threshold ≤ p
    · simp only [if_pos hp]
      constructor
      · simpa using Nat.succ_le_succ hlen
      · intro q hq
        have hdrop : (ps ++ [p]).length - ((vadRun threshold ps).speech_frames + 1)
            = ps.length - (vadRun threshold ps).speech_frames := by
          simp only [List.length_append, List.length_singleton]
          omega
        rw [hdrop, List.drop_append_of_le_length (by omega)] at hq
        rcases List.mem_append.mp hq with h | h
        · exact hmem q h
        · rcases List.mem_singleton.mp h with rfl
          exact hp
    · simp only [if_neg hp]
      constructor
      · exact Nat.zero_le _
      · intro q hq
        simp at hq

/-- Invariant: the silence counter counts a trailing run of frames strictly
below the threshold. -/
theorem vadRun_silence_suffix (threshold : ℚ) (ps : List ℚ) :
    (vadRun threshold ps).silence_frames ≤ ps.length ∧
      ∀ q ∈ ps.drop (ps.length - (vadRun threshold ps).silence_frames), q < threshold := by
  induction ps using List.reverseRecOn with
  | nil => simp [vadRun, vadReset]
  | append_singleton ps p ih =>
    rw [vadRun_append]
    rcases ih with ⟨hlen, hmem⟩
    unfold process_chunk
    rw [vadRun_threshold]
    by_cases hp : threshold ≤ p
    · simp only [if_pos hp]
      constructor
      · exact Nat.zero_le _
      · intro q hq
        simp at hq
    · simp only [if_neg hp]
      constructor
      · simpa using Nat.succ_le_succ hlen
      · intro q hq
        have hdrop : (ps ++ [p]).length - ((vadRun threshold ps).silence_frames + 1)
            = ps.length - (vadRun threshold ps).silence_frames := by
          simp only [List.length_append, List.length_singleton]
          omega
        rw [hdrop, List.drop_append_of_le_length (by omega)] at hq
        rcases List.mem_append.mp hq with h | h
        · exact hmem q h
        · rcases List.mem_singleton.mp h with rfl
          exact lt_of_not_le hp

theorem drop_subset_drop {α : Type} (l : List α) {m n : Nat} (h : n ≤ m) :
    l.drop m ⊆ l.drop n := by
  intro x hx
  have heq : l.drop m = (l.drop n).drop (m - n) := by
    rw [List.drop_drop]
    congr 1
    omega
  rw [heq] at hx
  exact List.drop_subset _ _ hx

/-- C1: while the processing lock of a websocket session is held, every
arriving binary audio frame is dropped entirely (state unchanged: nothing
buffered, queued or retried, and no event emitted), and a pipeline run
(`speech_end`, which acquires the lock) can only start from an unlocked
state, so at most one per-utterance pipeline execution is in progress per
session at any time. -/
theorem locked_processing_drops_frames (s : WsState) (data : AudioChunk) (v : Bool)
    (h : s.processing_lock = true) :
    ws_receive_bytes s data v = (s, []) ∧
    ∀ (t : WsState) (d : AudioChunk) (b : Bool),
      WsEvent.speech_end ∈ (ws_receive_bytes t d b).2 → t.processing_lock = false := by
  constructor
  · simp [ws_receive_bytes, h]
  · intro t d b hmem
    cases ht : t.processing_lock
    · rfl
    · simp [ws_receive_bytes, ht] at hmem

/-- Witness for `locked_processing_drops_frames` at a concrete locked state. -/
theorem locked_processing_drops_frames_witness :
    (⟨[[0]], false, true⟩ : WsState).processing_lock = true ∧
      (ws_receive_bytes ⟨[[0]], false, true⟩ [1] true = (⟨[[0]], false, true⟩, []) ∧
       ∀ (t : WsState) (d : AudioChunk) (b : Bool),
         WsEvent.speech_end ∈ (ws_receive_bytes t d b).2 → t.processing_lock = false) :=
  ⟨rfl, locked_processing_drops_frames ⟨[[0]], false, true⟩ [1] true rfl⟩

/-- C2: after `reset()`, the reported `is_speech` flag flips from false to
true only on a frame closing a run of at least 3 consecutive frames with
probability at/above the threshold, and from true to false only on a frame
closing a run of at least 10 consecutive frames strictly below it. -/
theorem vad_hysteresis_claim (threshold : ℚ) (ps : List ℚ) (p : ℚ) :
    (((vadRun threshold ps).is_speech = false ∧
        (process_chunk (vadRun threshold ps) p).is_speech = true) →
      3 ≤ (ps ++ [p]).length ∧
        ∀ q ∈ (ps ++ [p]).drop ((ps ++ [p]).length - 3), threshold ≤ q) ∧
    (((vadRun threshold ps).is_speech = true ∧
        (process_chunk (vadRun threshold ps) p).is_speech = false) →
      10 ≤ (ps ++ [p]).length ∧
        ∀ q ∈ (ps ++ [p]).drop ((ps ++ [p]).length - 10), q < threshold) := by
  obtain ⟨hslen, hsmem⟩ := vadRun_speech_suffix threshold ps
  obtain ⟨hnlen, hnmem⟩ := vadRun_silence_suffix threshold ps
  constructor
  · rintro ⟨h1, h2⟩
    unfold process_chunk at h2
    rw [vadRun_threshold] at h2
    by_cases hp : threshold ≤ p
    · simp only [if_pos hp] at h2
      have hsf : min_speech_frames ≤ (vadRun threshold ps).speech_frames + 1 := by
        by_contra hc
        rw [if_neg hc] at h2
        rw [h1] at h2
        exact Bool.false_ne_true h2
      have h2le : 2 ≤ (vadRun threshold ps).speech_frames := by
        unfold min_speech_frames at hsf; omega
      refine ⟨by simp only [List.length_append, List.length_singleton]; omega, ?_⟩
      intro q hq
      have hlen3 : (ps ++ [p]).length - 3 = ps.length - 2 := by
        simp only [List.length_append, List.length_singleton]; omega
      rw [hlen3, List.drop_append_of_le_length (by omega)] at hq
      rcases List.mem_append.mp hq with hql | hqr
      · exact hsmem q (drop_subset_drop ps (by omega) hql)
      · rcases List.mem_singleton.mp hqr with rfl
        exact hp
    · simp only [if_neg hp] at h2
      by_cases hc : min_silence_frames ≤ (vadRun threshold ps).silence_frames + 1
      · rw [if_pos hc] at h2
        exact absurd h2 Bool.false_ne_true
      · rw [if_neg hc, h1] at h2
        exact absurd h2 Bool.false_ne_true
  · rintro ⟨h1, h2⟩
    unfold process_chunk at h2
    rw [vadRun_threshold] at h2
    by_cases hp : threshold ≤ p
    · simp only [if_pos hp] at h2
      by_cases hc : min_speech_frames ≤ (vadRun threshold ps).speech_frames + 1
      · rw [if_pos hc] at h2
        exact absurd h2.symm Bool.false_ne_true
      · rw [if_neg hc, h1] at h2
        exact absurd h2.symm Bool.false_ne_true
    · simp only [if_neg hp] at h2
      have hnf : min_silence_frames ≤ (vadRun threshold ps).silence_frames + 1 := by
        by_contra hc
        rw [if_neg hc] at h2
        rw [h1] at h2
        exact Bool.false_ne_true h2.symm
      have h9le : 9 ≤ (vadRun threshold ps).silence_frames := by
        unfold min_silence_frames at hnf; omega
      refine ⟨by simp only [List.length_append, List.length_singleton]; omega, ?_⟩
      intro q hq
      have hlen10 : (ps ++ [p]).length - 10 = ps.length - 9 := by
        simp only [List.length_append, List.length_singleton]; omega
      rw [hlen10, List.drop_append_of_le_length (by omega)] at hq
      rcases List.mem_append.mp hq with hql | hqr
      · exact hnmem q (drop_subset_drop ps (by omega) hql)
      · rcases List.mem_singleton.mp hqr with rfl
        exact lt_of_not_le hp

/-- Witness for `vad_hysteresis_claim`: two above-threshold frames leave
`is_speech` false and a third flips it. -/
theorem vad_hysteresis_claim_witness :
    ((vadRun 1 [1, 1]).is_speech = false ∧
        (process_chunk (vadRun 1 [1, 1]) 1).is_speech = true) ∧
      (3 ≤ (([1, 1] : List ℚ) ++ [1]).length ∧
        ∀ q ∈ (([1, 1] : List ℚ) ++ [1]).drop ((([1, 1] : List ℚ) ++ [1]).length - 3),
          (1 : ℚ) ≤ q) :=
  ⟨⟨by decide, by decide⟩,
    (vad_hysteresis_claim 1 [1, 1] 1).1 ⟨by decide, by decide⟩⟩

/-! ## Small string helpers (Python `in`, `str.split()`) -/

/-- `needle` occurs as a contiguous sublist of `hay` (Python `needle in hay`
for strings, over the character lists). -/
def listContainsSub {α : Type} [BEq α] (needle : List α) : List α → Bool
  | [] => needle.isEmpty
  | a :: hay => needle.isPrefixOf (a :: hay) || listContainsSub needle hay

/-- Python `needle in hay` on strings. -/
def strContains (hay needle : String) : Bool :=
  listContainsSub needle.toList hay.toList

/-- ASCII lowering of one character (model of Python `str.lower()`, which
the source only applies to ASCII text). -/
def asciiLower (c : Char) : Char :=
  if 'A' ≤ c && c ≤ 'Z' then Char.ofNat (c.toNat + 32) else c

/-- Python `s.lower()` (ASCII model). -/
def pyLower (s : String) : String := String.mk (s.toList.map asciiLower)

/-- Remove a trailing whitespace run. -/
def rstripList : List Char → List Char
  | [] => []
  | c :: cs =>
    match rstripList cs with
    | [] => if c.isWhitespace then [] else [c]
    | r => c :: r

/-- Strip leading and trailing whitespace from a character list. -/
def stripList (l : List Char) : List Char :=
  rstripList (l.dropWhile Char.isWhitespace)

/-- Python `s.strip()` (whitespace model: space, tab, CR, LF). -/
def pyStrip (s : String) : String := String.mk (stripList s.toList)

/-- Splitter for Python `s.split()`: accumulate the current word
(reversed) and emit words at whitespace runs. -/
def splitWsAux : List Char → List Char → List String
  | acc, [] => if acc = [] then [] else [String.mk acc.reverse]
  | acc, c :: cs =>
    if c.isWhitespace then
      if acc = [] then splitWsAux [] cs
      else String.mk acc.reverse :: splitWsAux [] cs
    else splitWsAux (c :: acc) cs

/-- Python `s.split()`: split on whitespace, discarding empty fragments. -/
def pySplit (s : String) : List String := splitWsAux [] s.toList

/-- Python `sep.join(xs)`. -/
def joinWith (sep : String) : List String → String
  | [] => ""
  | [x] => x
  | x :: y :: xs => x ++ sep ++ joinWith sep (y :: xs)

/-! ## Conversation history and durable interaction log

From `backend/conversation_manager.py`.  `ConversationHistory` holds a
`deque(maxlen=max_history)` of interaction dicts; `InteractionDatabase` is
an append-only SQLite table of interaction rows, modelled as a list in
insertion order (`save_interaction` performs a single `INSERT`).
`ConversationManager.add_interaction` does both. -/

/-- A metadata value (the interaction dicts store booleans, counts and
strings under string keys). -/
inductive MetaVal where
  | b (v : Bool)
  | n (v : Nat)
  | s (v : String)
  deriving DecidableEq, Repr

/-- One interaction dict as built in `ConversationHistory.add_interaction`
(lines 57-64). -/
structure Interaction where
  timestamp : String
  user_query : String
  intent : String
  response : String
  confidence : ℚ
  metadata : List (String × MetaVal)
  deriving DecidableEq, Repr

/-- In-memory recent window (`ConversationHistory`, lines 24-31). -/
structure ConversationHistory where
  max_history : Nat
  history : List Interaction
  session_id : String
  deriving DecidableEq, Repr

/-- Fresh history (`__init__`, lines 24-31); the time-based session id is a
parameter. -/
def mkConversationHistory (max_history : Nat) (session_id : String) : ConversationHistory :=
  { max_history := max_history, history := [], session_id := session_id }

/-- `ConversationHistory.add_interaction` (lines 45-67): build the
interaction dict (timestamp from `datetime.now()`, passed as `now`) and
append it to the `deque(maxlen=max_history)`; a full deque drops its oldest
entry, which is exactly dropping down to the last `max_history` elements. -/
def ConversationHistory.add_interaction (h : ConversationHistory)
    (now user_query intent response : String) (confidence : ℚ)
    (metadata : List (String × MetaVal)) : ConversationHistory :=
  let interaction : Interaction :=
    { timestamp := now, user_query := user_query, intent := intent,
      response := response, confidence := confidence, metadata := metadata }
  let hist := h.history ++ [interaction]
  { h with history := hist.drop (hist.length - h.max_history) }

/-- Python slicing `list(self.history)[-count:]` of
`get_recent_interactions` (lines 69-81): note `lst[-0:]` is the whole
list. -/
def lastSlice {α : Type} (l : List α) (count : Nat) : List α :=
  if count = 0 then l else l.drop (l.length - count)

/-- `ConversationHistory.get_context_string` (lines 83-103). -/
def ConversationHistory.get_context_string (h : ConversationHistory) (count : Nat) : String :=
  if h.history = [] then ""
  else
    let recent := lastSlice h.history count
    let context_lines := ["RECENT CONVERSATION CONTEXT:"] ++
      (List.enumFrom 1 recent).flatMap (fun p =>
        [toString p.1 ++ ". User: " ++ p.2.user_query,
         "   AXIOM: " ++ p.2.response])
    joinWith "\n" context_lines

/-- `ConversationHistory.clear` (lines 143-147): empty the window and mint
a new (time-based) session id, supplied as a parameter. -/
def ConversationHistory.clear (h : ConversationHistory) (new_session_id : String) :
    ConversationHistory :=
  { h with history := [], session_id := new_session_id }

/-- One row of the `interactions` table as inserted by
`InteractionDatabase.save_interaction` (lines 221-249).  The JSON
serialisation of the metadata is kept as the structured value. -/
structure DbRow where
  session_id : String
  timestamp : String
  user_query : String
  intent : String
  confidence : ℚ
  response : String
  metadata : List (String × MetaVal)
  deriving DecidableEq, Repr

/-- `ConversationManager` (lines 394-452): the recent window plus the
append-only `interactions` table (the `sessions` statistics table is not
modelled). -/
structure ConversationManager where
  history : ConversationHistory
  database : List DbRow
  deriving DecidableEq, Repr

/-- `ConversationManager.__init__` (lines 400-410). -/
def mkConversationManager (max_history : Nat) (session_id : String) : ConversationManager :=
  { history := mkConversationHistory max_history session_id, database := [] }

/-- `ConversationManager.add_interaction` (lines 412-435): push to the
window and insert one row into the database. -/
def ConversationManager.add_interaction (m : ConversationManager)
    (now user_query intent response : String) (confidence : ℚ)
    (metadata : List (String × MetaVal)) : ConversationManager :=
  { history := m.history.add_interaction now user_query intent response confidence metadata,
    database := m.database ++
      [{ session_id := m.history.session_id, timestamp := now, user_query := user_query,
         intent := intent, confidence := confidence, response := response,
         metadata := metadata }] }

/-- `ConversationManager.get_context_for_llm` (lines 437-439). -/
def ConversationManager.get_context_for_llm (m : ConversationManager) (count : Nat) : String :=
  m.history.get_context_string count

/-- `ConversationManager.end_session` (lines 441-448): updates the
`sessions` statistics table (not modelled; it does not touch the
`interactions` table) and clears the history. -/
def ConversationManager.end_session (m : ConversationManager) (new_session_id : String) :
    ConversationManager :=
  { m with history := m.history.clear new_session_id }

/-- Argument bundle for one `add_interaction` call. -/
structure AddArgs where
  now : String
  user_query : String
  intent : String
  response : String
  confidence : ℚ
  metadata : List (String × MetaVal)
  deriving DecidableEq, Repr

/-- The interaction dict that `add_interaction` builds from `a`. -/
def argsInteraction (a : AddArgs) : Interaction :=
  { timestamp := a.now, user_query := a.user_query, intent := a.intent,
    response := a.response, confidence := a.confidence, metadata := a.metadata }

/-- The database row that `add_interaction` inserts from `a` during
session `sid`. -/
def argsRow (sid : String) (a : AddArgs) : DbRow :=
  { session_id := sid, timestamp := a.now, user_query := a.user_query,
    intent := a.intent, confidence := a.confidence, response := a.response,
    metadata := a.metadata }

/-- Sequence of `add_interaction` calls. -/
def addAll (m : ConversationManager) (xs : List AddArgs) : ConversationManager :=
  xs.foldl (fun m a =>
    m.add_interaction a.now a.user_query a.intent a.response a.confidence a.metadata) m

/-- One operation on a `ConversationManager`. -/
inductive MgrOp where
  | add (a : AddArgs)
  | endSession (new_session_id : String)

/-- Apply one operation. -/
def applyMgrOp (m : ConversationManager) : MgrOp → ConversationManager
  | .add a => m.add_interaction a.now a.user_query a.intent a.response a.confidence a.metadata
  | .endSession sid => m.end_session sid

/-- C6: after 7 `add_interaction` calls on a fresh manager with window
capacity 5, the recent window holds exactly the last 5 interactions in
insertion order and the durable log holds all 7 rows in order; moreover for
every operation the window never exceeds its configured capacity and the
database only grows by appending. -/
theorem conversation_window_and_log :
    (∀ (x1 x2 x3 x4 x5 x6 x7 : AddArgs) (sid : String),
      (addAll (mkConversationManager 5 sid) [x1, x2, x3, x4, x5, x6, x7]).history.history
          = [argsInteraction x3, argsInteraction x4, argsInteraction x5,
             argsInteraction x6, argsInteraction x7] ∧
      (addAll (mkConversationManager 5 sid) [x1, x2, x3, x4, x5, x6, x7]).database
          = [argsRow sid x1, argsRow sid x2, argsRow sid x3, argsRow sid x4,
             argsRow sid x5, argsRow sid x6, argsRow sid x7]) ∧
    (∀ (m : ConversationManager) (op : MgrOp),
      ((applyMgrOp m op).history.history).length ≤ (applyMgrOp m op).history.max_history ∧
      ∃ tail, (applyMgrOp m op).database = m.database ++ tail) := by
  constructor
  · intro x1 x2 x3 x4 x5 x6 x7 sid
    constructor <;>
      simp [addAll, mkConversationManager, mkConversationHistory,
        ConversationManager.add_interaction, ConversationHistory.add_interaction,
        argsInteraction, argsRow]
  · intro m op
    cases op with
    | add a =>
      constructor
      · simp only [applyMgrOp, ConversationManager.add_interaction,
          ConversationHistory.add_interaction, List.length_drop]
        omega
      · exact ⟨_, rfl⟩
    | endSession sid =>
      constructor
      · simp [applyMgrOp, ConversationManager.end_session, ConversationHistory.clear]
      · exact ⟨[], by simp [applyMgrOp, ConversationManager.end_session]⟩

/-! ## Generation brain and model fallback

From `backend/axiom_brain.py`.  The external `ollama.chat` call is an
oracle taking the model name, the message list and the generation options,
returning either the reply content or the raised exception's message. -/

/-- The mutable brain state: the currently selected model name. -/
structure Brain where
  model_name : String
  deriving DecidableEq, Repr

/-- One chat message dict. -/
structure ChatMsg where
  role : String
  content : String
  deriving DecidableEq, Repr

/-- Oracle for `ollama.chat(model, messages, options={temperature,
num_predict})`: `.ok` is the reply content, `.error` the exception text. -/
abbrev ChatOracle := String → List ChatMsg → Nat → ℚ → Except String String

/-- The fixed fallback phrase of `generate_response` (line 97). -/
def fallback_phrase : String := "I am having trouble right now. Can you try again?"

/-- The named fallback model (lines 78-79). -/
def fallback_model : String := "drobo_lab_v2"

/-- Message-list construction of `generate_response` (lines 50-64). -/
def build_messages (system_prompt : Option String) (user_input : String) : List ChatMsg :=
  (match system_prompt with
   | some sp => [{ role := "system", content := sp }]
   | none => []) ++ [{ role := "user", content := user_input }]

/-- `AxiomBrain.generate_response` (lines 29-97): call the chat backend; on
an exception whose text contains "not found" while not already on the
fallback model, permanently switch `model_name` to `drobo_lab_v2` and retry
once; any other failure (including a failed retry) yields the fixed
fallback phrase.  The reply content is `.strip()`ped. -/
def generate_response (chat : ChatOracle) (b : Brain) (user_input : String)
    (system_prompt : Option String) (max_tokens : Nat) (temperature : ℚ) :
    String × Brain :=
  match chat b.model_name (build_messages system_prompt user_input) max_tokens temperature with
  | .ok response => (pyStrip response, b)
  | .error primary_error =>
    if strContains (pyLower primary_error) "not found" && b.model_name != fallback_model then
      match chat fallback_model (build_messages system_prompt user_input) max_tokens temperature with
      | .ok response => (pyStrip response, { b with model_name := fallback_model })
      | .error _ => (fallback_phrase, { b with model_name := fallback_model })
    else (fallback_phrase, b)

/-- C5: `generate_response` never propagates a failure: its result is
always either a stripped successful reply or the fixed fallback phrase; a
backend failure without the missing-model signature answers exactly the
fallback phrase; a "not found" failure on a non-fallback model permanently
switches the instance to `drobo_lab_v2` and retries with it; and once the
instance is on the fallback model no further substitution ever happens. -/
theorem generate_response_never_raises (chat : ChatOracle) (b : Brain)
    (user_input : String) (system_prompt : Option String)
    (max_tokens : Nat) (temperature : ℚ) :
    ((generate_response chat b user_input system_prompt max_tokens temperature).1
          = fallback_phrase ∨
      ∃ c, (generate_response chat b user_input system_prompt max_tokens temperature).1
            = pyStrip c ∧
        (chat b.model_name (build_messages system_prompt user_input) max_tokens temperature
              = .ok c ∨
         chat fallback_model (build_messages system_prompt user_input) max_tokens temperature
              = .ok c)) ∧
    (∀ e, chat b.model_name (build_messages system_prompt user_input) max_tokens temperature
            = .error e →
      (strContains (pyLower e) "not found" = false ∨ b.model_name = fallback_model) →
      generate_response chat b user_input system_prompt max_tokens temperature
        = (fallback_phrase, b)) ∧
    (∀ e, chat b.model_name (build_messages system_prompt user_input) max_tokens temperature
            = .error e →
      strContains (pyLower e) "not found" = true → b.model_name ≠ fallback_model →
      (generate_response chat b user_input system_prompt max_tokens temperature).2.model_name
          = fallback_model ∧
      (generate_response chat b user_input system_prompt max_tokens temperature).1
          = (match chat fallback_model (build_messages system_prompt user_input)
                max_tokens temperature with
             | .ok c => pyStrip c
             | .error _ => fallback_phrase)) ∧
    (b.model_name = fallback_model →
      (generate_response chat b user_input system_prompt max_tokens temperature).2 = b) := by
  refine ⟨?_, ?_, ?_, ?_⟩
  · unfold generate_response
    cases hc : chat b.model_name (build_messages system_prompt user_input) max_tokens temperature with
    | ok c => exact Or.inr ⟨c, rfl, Or.inl rfl⟩
    | error e =>
      cases hcond : (strContains (pyLower e) "not found" && b.model_name != fallback_model) with
      | true =>
        simp only [hcond, if_true]
        cases hr : chat fallback_model (build_messages system_prompt user_input) max_tokens temperature with
        | ok c => exact Or.inr ⟨c, rfl, Or.inr rfl⟩
        | error e2 => exact Or.inl rfl
      | false =>
        simp only [hcond, Bool.false_eq_true, if_false]
        exact Or.inl trivial
  · intro e he hside
    unfold generate_response
    rw [he]
    have hcond : (strContains (pyLower e) "not found" && b.model_name != fallback_model) = false := by
      rcases hside with h | h
      · simp [h]
      · simp [h]
    simp only [hcond, Bool.false_eq_true, if_false]
  · intro e he hnf hne
    unfold generate_response
    rw [he]
    have hcond : (strContains (pyLower e) "not found" && b.model_name != fallback_model) = true := by
      simp [hnf, hne]
    simp only [hcond, if_true]
    cases hr : chat fallback_model (build_messages system_prompt user_input) max_tokens temperature with
    | ok c => exact ⟨rfl, rfl⟩
    | error e2 => exact ⟨rfl, rfl⟩
  · intro hb
    unfold generate_response
    cases hc : chat b.model_name (build_messages system_prompt user_input) max_tokens temperature with
    | ok c => rfl
    | error e =>
      have hcond : (strContains (pyLower e) "not found" && b.model_name != fallback_model) = false := by
        simp [hb]
      simp only [hcond, Bool.false_eq_true, if_false]

/-- A concrete chat oracle whose primary model is missing and whose
fallback model answers. -/
def chatOracleW : ChatOracle := fun model _ _ _ =>
  if model = "drobotics_test" then Except.error "model drobotics_test not found"
  else Except.ok " All good. "

/-- Witness for `generate_response_never_raises`: the missing-model branch
switches to the fallback model, retries and strips the retried reply. -/
theorem generate_response_never_raises_witness :
    (generate_response chatOracleW ⟨"drobotics_test"⟩ "hi" none 80 0).2.model_name
        = fallback_model ∧
      (generate_response chatOracleW ⟨"drobotics_test"⟩ "hi" none 80 0).1
        = (match chatOracleW fallback_model (build_messages none "hi") 80 0 with
           | .ok c => pyStrip c
           | .error _ => fallback_phrase) :=
  (generate_response_never_raises chatOracleW ⟨"drobotics_test"⟩ "hi" none 80 0).2.2.1
    "model drobotics_test not found" rfl (by decide) (by decide)

/-! ## Keyword mapper

From `backend/keyword_mapper.py`.  The inventory file, the carousel mapping
file and the derived keyword map are loaded/derived in `__init__` from
external JSON data; a `KeywordMapper` value carries the attributes that
`__init__` actually assigns.  `get_product_name` (lines 238-245) reads
`self.carousel_to_inventory`, an attribute that no method ever assigns; the
attribute is therefore modelled as an `Option` that `__init__` leaves
`none`, and the attribute read as an `Except` that fails when it is
absent. -/

/-- One inventory product. -/
structure Product where
  name : String
  category : String
  specs : String
  deriving DecidableEq, Repr

/-- Attribute state of a `KeywordMapper` object after `__init__`
(lines 16-34): `inventory`, `carousel_mapping` and `keyword_map` are
assigned; `carousel_to_inventory` never is. -/
structure KeywordMapper where
  inventory : List Product
  carousel_mapping : List (Nat × Nat)
  keyword_map : List (String × Nat)
  carousel_to_inventory : Option (List (Nat × Nat))
  deriving DecidableEq, Repr

/-- `KeywordMapper.__init__` with the externally loaded data: the
`carousel_to_inventory` attribute is not assigned anywhere. -/
def mkKeywordMapper (inventory : List Product) (carousel_mapping : List (Nat × Nat))
    (keyword_map : List (String × Nat)) : KeywordMapper :=
  { inventory := inventory, carousel_mapping := carousel_mapping,
    keyword_map := keyword_map, carousel_to_inventory := none }

/-- Python regex `\w` on ASCII: letters, digits, underscore. -/
def isWordChar (c : Char) : Bool := c.isAlphanum || c = '_'

/-- Word-character status of an optional neighbouring character (absent
neighbours at string edges count as non-word). -/
def isWordOpt : Option Char → Bool
  | none => false
  | some c => isWordChar c

/-- Regex `\b`: a boundary lies between two positions iff exactly one side
is a word character. -/
def boundaryBetween (a b : Option Char) : Bool := isWordOpt a != isWordOpt b

/-- `re.search(r'\b<kw>\b', text)` succeeding exactly at the current
position, with `prev` the character before it. -/
def matchesAt (kw : List Char) (prev : Option Char) (l : List Char) : Bool :=
  kw.isPrefixOf l && boundaryBetween prev kw.head? &&
    boundaryBetween kw.getLast? ((l.drop kw.length).head?)

/-- `re.search(r'\b<kw>\b', text)`: try every position. -/
def searchWordBoundary (kw : List Char) : Option Char → List Char → Bool
  | prev, [] => matchesAt kw prev []
  | prev, c :: cs => matchesAt kw prev (c :: cs) || searchWordBoundary kw (some c) cs

/-- One keyword test of `detect_keyword` (lines 215-233): substring match
for multi-word phrases, word-boundary regex match for single words. -/
def kwMatches (kw : String) (text_lower : String) : Bool :=
  if kw.toList.contains ' ' then strContains text_lower kw
  else searchWordBoundary kw.toList none text_lower.toList

/-- Stable insertion preserving descending length order. -/
def insertByLenDesc (x : String) : List String → List String
  | [] => [x]
  | y :: ys => if y.length ≤ x.length then x :: y :: ys else y :: insertByLenDesc x ys

/-- Python `sorted(keys, key=len, reverse=True)` (line 213): stable,
longest first. -/
def sortByLenDesc : List String → List String
  | [] => []
  | x :: xs => insertByLenDesc x (sortByLenDesc xs)

/-- `KeywordMapper.detect_keyword` (lines 196-236): greedy longest-first
match over the registered keywords; on a hit, translate the inventory index
through `carousel_mapping.get(idx, idx)`. -/
def detect_keyword (m : KeywordMapper) (text : String) : Option (Nat × String) :=
  if text = "" then none
  else
    let text_lower := pyLower text
    let sorted_keywords := sortByLenDesc (m.keyword_map.map Prod.fst)
    match sorted_keywords.find? (fun kw => kwMatches kw text_lower) with
    | some keyword =>
      let inventory_idx := (m.keyword_map.lookup keyword).getD 0
      let carousel_idx := (m.carousel_mapping.lookup inventory_idx).getD inventory_idx
      some (carousel_idx, keyword)
    | none => none

/-- The `AttributeError` raised by reading the never-assigned
`carousel_to_inventory` attribute. -/
def attrErrorMsg : String :=
  "\x27KeywordMapper\x27 object has no attribute \x27carousel_to_inventory\x27"

/-- `KeywordMapper.get_product_name` (lines 238-245).  The first step reads
`self.carousel_to_inventory`; since `__init__` never assigns it, the read
raises `AttributeError`, modelled by the `.error` branch. -/
def get_product_name (m : KeywordMapper) (card_index : Nat) : Except String String :=
  match m.carousel_to_inventory with
  | none => .error attrErrorMsg
  | some tbl =>
    match tbl.lookup card_index with
    | some inv_idx =>
      if inv_idx < m.inventory.length then
        .ok ((m.inventory.getD inv_idx ⟨"", "", ""⟩).name)
      else .ok "Unknown"
    | none => .ok "Unknown"

/-! ## Conversation orchestrator

From `backend/conversation_orchestrator.py`.  The semantic vector search,
the inventory file read of `_check_inventory_for_keywords` and the chat
backend are oracles; everything else is translated from the source. -/

/-- `ConversationState` (lines 14-32). -/
structure ConvState where
  queue : List String
  last_topic : Option String
  last_intent : Option String
  waiting_for_next : Bool
  deriving DecidableEq, Repr

/-- `ConversationState.__init__` (lines 16-20). -/
def mkConvState : ConvState :=
  { queue := [], last_topic := none, last_intent := none, waiting_for_next := false }

/-- `ConversationState.has_queued_topics` (lines 22-23):
`len(self.queue) > 0`. -/
def ConvState.has_queued_topics (s : ConvState) : Bool := !s.queue.isEmpty

/-- `ConversationState.pop_next` (lines 25-29). -/
def ConvState.pop_next (s : ConvState) : Option String × ConvState :=
  match s.queue with
  | [] => (none, s)
  | q :: rest => (some q, { s with queue := rest, waiting_for_next := false })

/-- `ConversationState.add_to_queue` (lines 31-32). -/
def ConvState.add_to_queue (s : ConvState) (queries : List String) : ConvState :=
  { s with queue := s.queue ++ queries }

/-- An authority record as returned by `retrieve_authorities`
(`semantic_rag_handler.py` lines 233-258); absent dict keys are modelled by
`""` defaults, matching the `.get(key, '')` reads of the formatter. -/
structure Authority where
  name : String
  role : String
  expertise : String
  description : String
  deriving DecidableEq, Repr

/-- A project record as returned by `retrieve_projects`
(`semantic_rag_handler.py` lines 151-188). -/
structure Project where
  project_title : String
  description : String
  hardware_needed : List String
  difficulty : String
  deriving DecidableEq, Repr

/-- A generic result record as returned by `retrieve_equipment`
(`semantic_rag_handler.py` lines 190-227); the formatter checks key
presence, so the fields are optional. -/
structure GenItem where
  name : Option String
  specs : Option String
  content : Option String
  deriving DecidableEq, Repr

/-- One match dict built by `_check_inventory_for_keywords`
(lines 304-334): keys `name`, `category`, `specs` only. -/
structure InvMatch where
  name : String
  category : String
  specs : String
  deriving DecidableEq, Repr

/-- The `rag_context` dict: each producer of the dict yields exactly one of
these key layouts (`authorities` / `projects` / `equipment`+`results` from
the inventory path / `results`), and `_format_rag_context` dispatches on
which key is present (lines 336-423). -/
inductive RagContext where
  | authoritiesCtx (authorities : List Authority)
  | projectsCtx (projects : List Project)
  | inventoryCtx (equipment : List InvMatch)
  | resultsCtx (results : List GenItem)
  deriving DecidableEq, Repr

/-- `_format_rag_context`, `'authorities'` branch (lines 339-358). -/
def format_authorities (authorities : List Authority) : String :=
  if authorities.isEmpty then "No authority information found."
  else
    joinWith "\n\n" ((List.enumFrom 1 (authorities.take 3)).map (fun p =>
      let line := toString p.1 ++ ". " ++ p.2.name ++ " - " ++ p.2.role
      let line := if p.2.expertise ≠ "" then line ++ "\n   Expertise: " ++ p.2.expertise else line
      if p.2.description ≠ "" then line ++ "\n   Details: " ++ p.2.description else line))

/-- `_format_rag_context`, `'projects'` branch (lines 361-375). -/
def format_projects (projects : List Project) : String :=
  if projects.isEmpty then "No project ideas found in database."
  else
    joinWith "\n\n" ((List.enumFrom 1 (projects.take 3)).map (fun p =>
      toString p.1 ++ ". " ++ p.2.project_title ++ " (" ++ p.2.difficulty ++ ")\n   Hardware: "
        ++ joinWith ", " p.2.hardware_needed ++ "\n   Details: " ++ p.2.description))

/-- `_format_rag_context`, `'equipment'` branch (lines 378-408), reached
only by the inventory-match dicts, which carry no `quantity`/`available`
keys: `item.get('available', 0)` is 0, so the availability text is always
"Currently unavailable", and `specs` is a string. -/
def format_equipment (equipment : List InvMatch) : String :=
  if equipment.isEmpty then "No equipment information found."
  else
    joinWith "\n\n" ((equipment.take 3).map (fun item =>
      let line := "- " ++ item.name ++ ": " ++ "Currently unavailable"
      if item.specs ≠ "" then line ++ "\n  Specs: " ++ item.specs else line))

/-- `_format_rag_context`, generic `results` tail (lines 410-423). -/
def format_results (results : List GenItem) : String :=
  if results.isEmpty then "No specific data available."
  else
    joinWith "\n" ((results.take 2).filterMap (fun item =>
      match item.name, item.specs with
      | some n, some sp => some (n ++ ": " ++ sp)
      | _, _ => item.content))

/-- `_format_rag_context` (lines 336-423). -/
def format_rag_context : RagContext → String
  | .authoritiesCtx a => format_authorities a
  | .projectsCtx p => format_projects p
  | .inventoryCtx e => format_equipment e
  | .resultsCtx r => format_results r

/-- Base block of `_build_rag_system_prompt` (lines 194-203). -/
def prompt_base : String :=
  "You are AXIOM, a breakthrough Voice Intelligence for Drobotics Lab at JUIT.\n\nCREATOR: Built by Shubham Dev (JUIT student) as part of the Wired Brain Project, which aims to bridge the gap between human cognition and robotic systems.\n\nCRITICAL FACTS (ALWAYS USE THESE):\n- JUIT = Jaypee University of Information Technology\n- Vice Chancellor: Prof. (Dr.) Rajendra Kumar Sharma (Machine Learning expert)\n\nPERSONALITY: Speak like a friendly lab assistant, not a robot. Be enthusiastic about robotics. Use casual, natural language.\n"

/-- Response-rules block of `_build_rag_system_prompt` (lines 220-228). -/
def prompt_rules : String :=
  "\nRESPONSE RULES:\n- Maximum 2 natural sentences\n- Use data provided below\n- Reference previous context when relevant (e.g., \"Since you mentioned...\")\n- Be warm and encouraging\n- End with a question or invitation\n- NO lists, bullets, or markdown\n"

/-- `_build_rag_system_prompt` (lines 188-241). -/
def build_rag_system_prompt (intent : String) (rag_context : RagContext)
    (conversation_context : String) : String :=
  let base := prompt_base
  let base := if conversation_context ≠ "" then
      base ++ "\nRECENT CONVERSATION CONTEXT:\n" ++ conversation_context
        ++ "\n\nIMPORTANT INSTRUCTIONS:\n- Reference the conversation history above\n- Build on previous topics and context\n- If user mentioned a project/equipment/idea, acknowledge it in your response\n- Maintain continuity with what was discussed before\n"
    else base ++ "\nThis is the start of a new conversation.\n"
  let base := base ++ prompt_rules
  let rag_data := format_rag_context rag_context
  let instruction :=
    if intent = "project_idea" then
      "Suggest 2-3 projects from the list below. Mention hardware needed."
    else if intent = "equipment_query" then
      "EQUIPMENT AVAILABILITY CHECK: Tell the user what we HAVE IN STOCK from the data below. If we don\x27t have something, mention what we DO have that\x27s similar. Reference prior context if the user mentioned an equipment before."
    else if intent = "people_query" || intent = "lab_info" then
      "Use ONLY the authority data below. If asking about Vice Chancellor, say Prof. (Dr.) Rajendra Kumar Sharma."
    else "Answer using the context provided below."
  base ++ "\n" ++ instruction ++ "\n\nDATA:\n" ++ rag_data

/-- Oracle environment: the external collaborators invoked by the
orchestrator and the session pipeline, at their exact call boundaries. -/
structure Env where
  /-- `datetime.now().isoformat()` at interaction-record time. -/
  now : String
  /-- `ollama.chat` (see `ChatOracle`). -/
  chat : ChatOracle
  /-- `rag_handler.retrieve_projects(text, max_results)` payload. -/
  retrieve_projects : String → Nat → List Project
  /-- `rag_handler.retrieve_authorities(text, max_results)` payload. -/
  retrieve_authorities : String → Nat → List Authority
  /-- `rag_handler.retrieve_equipment(text, max_results)` payload. -/
  retrieve_equipment : String → Nat → List GenItem
  /-- `_check_inventory_for_keywords(text)`: file read plus matching over
  the external `data/inventory.json`. -/
  check_inventory : String → List InvMatch
  /-- `vocab.is_hallucination(text)` (`vocabulary_handler.py`). -/
  is_hallucination : String → Bool
  /-- `intent.predict(text)`: intent label and confidence (SetFit model). -/
  predict : String → String × ℚ
  /-- `vocab.normalize(text)` (`vocabulary_handler.py`). -/
  normalize : String → String
  /-- The process-wide `KeywordMapper` instance. -/
  mapper : KeywordMapper
  /-- `model_3d_mapper.process_text(text)`: `(model_path, model_name)`. -/
  process_text_3d : String → Option (String × String)
  /-- `template_handler.should_use_template(intent, confidence, text)`. -/
  should_use_template : String → ℚ → String → Bool
  /-- `template_handler.get_template_response(intent, text)` (may be
  `None`). -/
  get_template_response : String → String → Option String
  /-- `tts.tts.generate(text, ...)`: the synthesized samples, `none` for a
  falsy result. -/
  tts_generate : String → Option (List Int)

/-- Mutable state owned by the `ConversationOrchestrator` singleton and the
shared brain: the dialogue `ConversationState`, the conversation manager
and the Ollama brain. -/
structure OrchState where
  state : ConvState
  conversation : ConversationManager
  llm : Brain
  deriving DecidableEq, Repr

/-- Stage markers recording which subsystem a pipeline run invokes, with
the text each one receives. -/
inductive Stage where
  | hallucinationCheck (input : String)
  | intentClassify (input : String)
  | sttCorrect (input : String)
  | vocabNormalize (input : String)
  | keywordDetect (input : String)
  | topicDetect3d (input : String)
  | templateRoute (input : String)
  | llmGenerate (input : String) (intent : String)
  | responseCorrect (input : String)
  | ttsSynthesize (input : String)
  | orchHandle (intent : String) (input : String)
  deriving DecidableEq, Repr

/-- `hardcoded_facts["juit_full_name"]` (line 59). -/
def juit_full_name : String := "Jaypee University of Information Technology"

/-- `hardcoded_facts["vice_chancellor"]` (line 60). -/
def vice_chancellor_name : String := "Prof. (Dr.) Rajendra Kumar Sharma"

/-- `hardcoded_facts["vice_chancellor_expertise"]` (line 61). -/
def vice_chancellor_expertise : String :=
  "Machine Learning, Pattern Recognition, and Speech Processing"

/-- `canned_responses` (lines 65-69). -/
def canned_responses : List (String × String) :=
  [("greeting", "Hi! I\x27m AXIOM, your Drobotics Lab assistant built by Shubham Dev. What brings you here today?"),
   ("out_of_scope", "That\x27s outside our lab\x27s scope. Want to know about our available equipment?"),
   ("unclear_input", "I didn\x27t catch that. Could you ask about specific equipment or the lab?")]

/-- `canned_responses["unclear_input"]`. -/
def unclear_input_response : String :=
  "I didn\x27t catch that. Could you ask about specific equipment or the lab?"

/-- The identity-question triggers of `query_with_context` (line 125). -/
def identity_questions : List String :=
  ["who are you", "what are you", "your name", "introduce yourself",
   "who created you", "who made you", "who built you"]

/-- The hardcoded identity answer (line 126). -/
def identity_response : String :=
  "I\x27m AXIOM, a breakthrough voice assistant built by Shubham Dev under the Wired Brain Project at JUIT. I help with Drobotics Lab equipment, project ideas, and research guidance. What can I assist you with?"

/-- The hardcoded JUIT answer (line 132). -/
def juit_response : String :=
  "JUIT stands for " ++ juit_full_name ++ ". It\x27s a premier technical university in Himachal Pradesh. Want to know more about our Drobotics Lab?"

/-- The hardcoded Vice-Chancellor answer (line 138). -/
def vc_response : String :=
  "The Vice Chancellor of JUIT is " ++ vice_chancellor_name ++ ", an expert in "
    ++ vice_chancellor_expertise ++ ". Anything else about JUIT you\x27d like to know?"

/-- `len(rag_context.get("results", rag_context.get("projects",
rag_context.get("authorities", []))))` (line 181): each context shape
carries exactly one of the keys. -/
def ragResultsCount : RagContext → Nat
  | .authoritiesCtx a => a.length
  | .projectsCtx p => p.length
  | .inventoryCtx e => e.length
  | .resultsCtx r => r.length

/-- `ConversationOrchestrator.query_with_context` (lines 114-186): the
hardcoded-fact short circuits, the intent-directed retrieval (inventory
first for equipment), the prompt construction, the generation call and the
interaction record (confidence 0.9, metadata with the retrieved-result
count and the history presence). -/
def query_with_context (env : Env) (os : OrchState) (intent text : String) :
    String × OrchState :=
  let text_lower := pyLower text
  if identity_questions.any (fun q => strContains text_lower q) then
    (identity_response,
     { os with conversation := (os.conversation.add_interaction env.now text intent
         identity_response 1 [("hardcoded", MetaVal.b true)]) })
  else if strContains text_lower "juit" &&
      (["what", "full", "name", "mean", "stand"].any (fun w => strContains text_lower w)) then
    (juit_response,
     { os with conversation := (os.conversation.add_interaction env.now text intent
         juit_response 1 [("hardcoded", MetaVal.b true)]) })
  else if strContains text_lower "vice chancellor" || strContains text_lower "vice-chancellor" ||
      (strContains text_lower "vc" && strContains text_lower "juit") then
    (vc_response,
     { os with conversation := (os.conversation.add_interaction env.now text intent
         vc_response 1 [("hardcoded", MetaVal.b true)]) })
  else
    let rag_context :=
      if intent = "project_idea" then RagContext.projectsCtx (env.retrieve_projects text 3)
      else if intent = "people_query" || intent = "lab_info" then
        RagContext.authoritiesCtx (env.retrieve_authorities text 3)
      else
        match env.check_inventory text with
        | [] => RagContext.resultsCtx (env.retrieve_equipment text 3)
        | m :: ms => RagContext.inventoryCtx (m :: ms)
    let conversation_context := os.conversation.get_context_for_llm 4
    let system_prompt := build_rag_system_prompt intent rag_context conversation_context
    let gen := generate_response env.chat os.llm text (some system_prompt) 80 (3/10)
    let response := pyStrip gen.1
    let conv2 := os.conversation.add_interaction env.now text intent response (9/10)
      [("rag_results", MetaVal.n (ragResultsCount rag_context)),
       ("had_conversation_context", MetaVal.b (conversation_context != ""))]
    (response, { os with conversation := conv2, llm := gen.2 })

/-- The delimiter alternatives of `detect_multiple_queries`
(line 434: `re.split(r'\s+and\s+|\s+also\s+|(?<=\?)\s+', text)`): a
conjunction delimiter is a maximal whitespace run, the literal word, and a
further nonempty maximal whitespace run (the greedy `\s+` cannot backtrack
into a shorter run because the word starts with a letter). -/
def matchConjDelim (word : List Char) (l : List Char) : Option (List Char) :=
  let ws1 := l.takeWhile Char.isWhitespace
  let r1 := l.dropWhile Char.isWhitespace
  if ws1.isEmpty then none
  else if word.isPrefixOf r1 then
    let r2 := r1.drop word.length
    if (r2.takeWhile Char.isWhitespace).isEmpty then none
    else some (r2.dropWhile Char.isWhitespace)
  else none

/-- Scanner for the leftmost-first `re.split` above: at each position try
`\s+and\s+`, then `\s+also\s+`, then `(?<=\?)\s+`; a match emits the
accumulated part and resumes after the delimiter.  The fuel bounds the scan
by the input length. -/
def splitQAux : Nat → Option Char → List Char → List Char → List (List Char)
  | 0, _, acc, l => [acc.reverse ++ l]
  | fuel + 1, prev, acc, l =>
    match l with
    | [] => [acc.reverse]
    | c :: cs =>
      match matchConjDelim "and".toList (c :: cs) with
      | some rest => acc.reverse :: splitQAux fuel (some ' ') [] rest
      | none =>
        match matchConjDelim "also".toList (c :: cs) with
        | some rest => acc.reverse :: splitQAux fuel (some ' ') [] rest
        | none =>
          if prev = some '?' && c.isWhitespace then
            acc.reverse :: splitQAux fuel (some ' ') [] ((c :: cs).dropWhile Char.isWhitespace)
          else
            splitQAux fuel (some c) (c :: acc) cs

/-- `detect_multiple_queries` (lines 425-439): split on the conjunction /
question-mark delimiters, strip the parts, keep those longer than 5
characters, and fall back to the whole text when fewer than 2 remain. -/
def detect_multiple_queries (text : String) : List String :=
  let parts := (splitQAux (text.toList.length + 1) none [] text.toList).map String.mk
  let queries := parts.filterMap (fun p =>
    let s := pyStrip p
    if 5 < s.length then some s else none)
  if 1 < queries.length then queries else [text]

/-- The stop words of `get_topic_preview` (line 445). -/
def topic_keywords : List String := ["about", "is", "the", "what", "who", "how", "tell", "me"]

/-- `get_topic_preview` (lines 441-448): first 3 words that are not stop
words. -/
def get_topic_preview (query : String) : String :=
  let words := pySplit query
  let filtered := words.filter (fun w => !(topic_keywords.contains (pyLower w)))
  joinWith " " (filtered.take 3)

/-- The RAG-routed intent list of `handle` (line 94). -/
def rag_intents : List String :=
  ["equipment_query", "lab_info", "people_query", "capability_check", "project_idea"]

/-- `ConversationOrchestrator.handle` (lines 71-112): ghost
acknowledgments (dequeue one deferred topic as an equipment query, else
silent `None`), canned responses, multi-query decomposition (answer the
first sub-query, queue the rest, invite the next topic), single-query
context enrichment, and the unclear-input fallback.  The trace marks the
entry into `handle`. -/
def handle (env : Env) (os : OrchState) (intent text : String) :
    Option String × OrchState × List Stage :=
  let tag := [Stage.orchHandle intent text]
  if intent = "acknowledgment" then
    if os.state.has_queued_topics then
      match os.state.pop_next with
      | (some next_topic, st) =>
        let r := query_with_context env { os with state := st } "equipment_query" next_topic
        (some r.1, r.2, tag)
      | (none, st) => (none, { os with state := st }, tag)
    else (none, os, tag)
  else
    match canned_responses.lookup intent with
    | some r => (some r, os, tag)
    | none =>
      if rag_intents.contains intent then
        let queries := detect_multiple_queries text
        match queries with
        | q0 :: q1 :: rest =>
          let r := query_with_context env os intent q0
          let os2 := { r.2 with state :=
            { (r.2.state.add_to_queue (q1 :: rest)) with waiting_for_next := true } }
          let next_preview := get_topic_preview q1
          (some (r.1 ++ " Should we discuss " ++ next_preview ++ " next?"), os2, tag)
        | _ =>
          let r := query_with_context env os intent text
          (some r.1, r.2, tag)
      else
        (some unclear_input_response, os, tag)

/-- A concrete environment with trivial oracles, for closed witnesses. -/
def envW : Env :=
  { now := "t0"
    chat := fun _ _ _ _ => Except.error "backend down"
    retrieve_projects := fun _ _ => []
    retrieve_authorities := fun _ _ => []
    retrieve_equipment := fun _ _ => []
    check_inventory := fun _ => []
    is_hallucination := fun _ => false
    predict := fun _ => ("equipment_query", 0)
    normalize := fun t => t
    mapper := mkKeywordMapper [] [] []
    process_text_3d := fun _ => none
    should_use_template := fun _ _ _ => false
    get_template_response := fun _ _ => none
    tts_generate := fun _ => none }

/-- A concrete orchestrator state, for closed witnesses. -/
def osW : OrchState :=
  { state := mkConvState
    conversation := mkConversationManager 5 "session_w"
    llm := { model_name := "drobotics_test" } }

/-- C3: on intent `acknowledgment`, an empty sub-query queue yields the
silent result `none` with the whole orchestrator state unchanged, while a
non-empty queue removes exactly the front element (also clearing the
follow-up flag, as `pop_next` does) and routes it through the
context-enrichment path `query_with_context` as an equipment query. -/
theorem acknowledgment_routing (env : Env) (os : OrchState) (text : String) :
    (os.state.queue = [] →
      handle env os "acknowledgment" text
        = (none, os, [Stage.orchHandle "acknowledgment" text])) ∧
    (∀ q qs, os.state.queue = q :: qs →
      handle env os "acknowledgment" text
        = (let os1 : OrchState :=
             { os with state := { os.state with queue := qs, waiting_for_next := false } }
           let r := query_with_context env os1 "equipment_query" q
           (some r.1, r.2, [Stage.orchHandle "acknowledgment" text]))) := by
  constructor
  · intro h
    simp [handle, ConvState.has_queued_topics, h]
  · intro q qs h
    simp only [handle, ConvState.has_queued_topics, ConvState.pop_next, h,
      List.isEmpty_cons, Bool.not_false, if_true, if_pos rfl]

/-- Witness for `acknowledgment_routing`: both branches at a concrete
environment and state. -/
theorem acknowledgment_routing_witness :
    (handle envW osW "acknowledgment" "okay"
        = (none, osW, [Stage.orchHandle "acknowledgment" "okay"])) ∧
    (handle envW { osW with state := { osW.state with queue := ["RealSense"] } }
        "acknowledgment" "okay"
      = (let os1 : OrchState :=
           { osW with state := { osW.state with queue := [], waiting_for_next := false } }
         let r := query_with_context envW os1 "equipment_query" "RealSense"
         (some r.1, r.2, [Stage.orchHandle "acknowledgment" "okay"]))) := by
  constructor
  · exact (acknowledgment_routing envW osW "okay").1 rfl
  · exact (acknowledgment_routing envW
      { osW with state := { osW.state with queue := ["RealSense"] } } "okay").2
      "RealSense" [] rfl

/-- C4: on the input "Tell me about Jetson and RealSense" with a
RAG-routed intent, multi-query detection yields exactly the 2 sub-queries
"Tell me about Jetson" and "RealSense", both longer than 5 characters; the
router answers only the first through the context-enrichment path, appends
the second to the session queue, sets the follow-up flag, and appends a
follow-up invitation naming the topic preview of the queued sub-query
(its first 3 non-stop-words, here "RealSense"). -/
theorem multi_query_decomposition (env : Env) (os : OrchState) (intent : String)
    (h : intent ∈ rag_intents) :
    detect_multiple_queries "Tell me about Jetson and RealSense"
        = ["Tell me about Jetson", "RealSense"] ∧
    (∀ q ∈ detect_multiple_queries "Tell me about Jetson and RealSense", 5 < q.length) ∧
    get_topic_preview "RealSense" = "RealSense" ∧
    (" Should we discuss " ++ "RealSense" ++ " next?" : String)
        = " Should we discuss RealSense next?" ∧
    handle env os intent "Tell me about Jetson and RealSense"
      = (let r := query_with_context env os intent "Tell me about Jetson"
         let os2 : OrchState := { r.2 with state :=
           { (r.2.state.add_to_queue ["RealSense"]) with waiting_for_next := true } }
         (some (r.1 ++ " Should we discuss " ++ "RealSense" ++ " next?"), os2,
          [Stage.orchHandle intent "Tell me about Jetson and RealSense"])) := by
  refine ⟨by decide, by decide, by decide, by decide, ?_⟩
  fin_cases h <;> rfl

/-- Witness for `multi_query_decomposition` at intent `equipment_query`
and a concrete environment and state. -/
theorem multi_query_decomposition_witness :
    ("equipment_query" ∈ rag_intents) ∧
    (detect_multiple_queries "Tell me about Jetson and RealSense"
        = ["Tell me about Jetson", "RealSense"] ∧
     (∀ q ∈ detect_multiple_queries "Tell me about Jetson and RealSense", 5 < q.length) ∧
     get_topic_preview "RealSense" = "RealSense" ∧
     (" Should we discuss " ++ "RealSense" ++ " next?" : String)
         = " Should we discuss RealSense next?" ∧
     handle envW osW "equipment_query" "Tell me about Jetson and RealSense"
       = (let r := query_with_context envW osW "equipment_query" "Tell me about Jetson"
          let os2 : OrchState := { r.2 with state :=
            { (r.2.state.add_to_queue ["RealSense"]) with waiting_for_next := true } }
          (some (r.1 ++ " Should we discuss " ++ "RealSense" ++ " next?"), os2,
           [Stage.orchHandle "equipment_query" "Tell me about Jetson and RealSense"]))) :=
  ⟨by decide, multi_query_decomposition envW osW "equipment_query" (by decide)⟩

/-! ## Minimal safe corrector

From `backend/minimal_safe_corrector.py`.  The regex substitutions are
translated into character-list scanners with the exact Python `re`
semantics (leftmost match, lazy `(.+?)` content that cannot cross a
newline, greedy `\s*`/`\s+`, case-insensitive unit literals, `\b` word
boundaries).  The scanners carry a fuel that is always called with more
fuel than the input length; every step consumes at least one character. -/

/-- The backtick character. -/
def backtickChar : Char := Char.ofNat 96

/-- Lazy close search for `re.sub(r'\[.*?\]', '', text)`: earliest `]`
with no newline in between (`.` does not match a newline); returns the
rest after the `]`. -/
def findCloseBracket : List Char → Option (List Char)
  | [] => none
  | ']' :: cs => some cs
  | '\n' :: _ => none
  | _ :: cs => findCloseBracket cs

/-- Scanner for `re.sub(r'\[.*?\]', '', text)` of `correct_stt`
(line 54). -/
def stripNoiseTagsAux : Nat → List Char → List Char
  | 0, l => l
  | fuel + 1, l =>
    match l with
    | [] => []
    | '[' :: cs =>
      match findCloseBracket cs with
      | some rest => stripNoiseTagsAux fuel rest
      | none => '[' :: stripNoiseTagsAux fuel cs
    | c :: cs => c :: stripNoiseTagsAux fuel cs

/-- `MinimalSafeCorrector.correct_stt` (lines 43-60): remove `[...]` noise
tags, then strip. -/
def correct_stt (text : String) : String :=
  if text = "" then text
  else pyStrip (String.mk (stripNoiseTagsAux (text.toList.length + 1) text.toList))

/-- Lazy close search for `\*\*(.+?)\*\*`: at least one non-newline
content character, then the earliest `**`; returns (content,
rest-after-close). -/
def findBoldClose : List Char → Option (List Char × List Char)
  | [] => none
  | c :: cs =>
    if c = '\n' then none
    else
      match cs with
      | '*' :: '*' :: rest => some ([c], rest)
      | _ =>
        match findBoldClose cs with
        | some (content, rest) => some (c :: content, rest)
        | none => none

/-- Scanner for `re.sub(r'\*\*(.+?)\*\*', r'\1', text)` (line 77). -/
def subBoldAux : Nat → List Char → List Char
  | 0, l => l
  | fuel + 1, l =>
    match l with
    | [] => []
    | c :: cs =>
      if c = '*' then
        match cs with
        | c2 :: cs2 =>
          if c2 = '*' then
            match findBoldClose cs2 with
            | some (content, after) => content ++ subBoldAux fuel after
            | none => c :: subBoldAux fuel cs
          else c :: subBoldAux fuel cs
        | [] => c :: subBoldAux fuel cs
      else c :: subBoldAux fuel cs

/-- Lazy close search for `\*(.+?)\*`. -/
def findStarClose : List Char → Option (List Char × List Char)
  | [] => none
  | c :: cs =>
    if c = '\n' then none
    else
      match cs with
      | '*' :: rest => some ([c], rest)
      | _ =>
        match findStarClose cs with
        | some (content, rest) => some (c :: content, rest)
        | none => none

/-- Scanner for `re.sub(r'\*(.+?)\*', r'\1', text)` (line 78). -/
def subStarAux : Nat → List Char → List Char
  | 0, l => l
  | fuel + 1, l =>
    match l with
    | [] => []
    | c :: cs =>
      if c = '*' then
        match findStarClose cs with
        | some (content, after) => content ++ subStarAux fuel after
        | none => c :: subStarAux fuel cs
      else c :: subStarAux fuel cs

/-- Lazy close search for the code-tick pattern. -/
def findTickClose : List Char → Option (List Char × List Char)
  | [] => none
  | c :: cs =>
    if c = '\n' then none
    else
      match cs with
      | d :: rest =>
        if d = backtickChar then some ([c], rest)
        else
          match findTickClose cs with
          | some (content, r) => some (c :: content, r)
          | none => none
      | [] => none

/-- Scanner for the code-tick substitution (line 79). -/
def subTickAux : Nat → List Char → List Char
  | 0, l => l
  | fuel + 1, l =>
    match l with
    | [] => []
    | c :: cs =>
      if c = backtickChar then
        match findTickClose cs with
        | some (content, after) => content ++ subTickAux fuel after
        | none => c :: subTickAux fuel cs
      else c :: subTickAux fuel cs

/-- Scanner for `re.sub(r'#{1,6}\s+', '', text)` (line 80): a match is up
to 6 hashes at the end of a hash run followed by at least one whitespace
character; the whole whitespace run is consumed greedily. -/
def subHeaderAux : Nat → List Char → List Char
  | 0, l => l
  | fuel + 1, l =>
    match l with
    | [] => []
    | c :: cs =>
      if c = '#' then
        let hs := (c :: cs).takeWhile (fun d => d = '#')
        let rest := (c :: cs).dropWhile (fun d => d = '#')
        if (rest.takeWhile Char.isWhitespace).isEmpty then
          hs ++ subHeaderAux fuel rest
        else if hs.length ≤ 6 then
          subHeaderAux fuel (rest.dropWhile Char.isWhitespace)
        else
          hs.take (hs.length - 6) ++ subHeaderAux fuel (rest.dropWhile Char.isWhitespace)
      else c :: subHeaderAux fuel cs

/-- One attempted match of `\b(\d+)\s*<unit>\b` at the current position
(the caller has established the leading word boundary and a digit head):
maximal digit run, maximal whitespace run (`\s*` cannot backtrack into a
shorter run because the unit starts with a letter), the unit literal
case-insensitively, and a trailing word boundary.  Returns the digit run
and the rest after the match. -/
def unitTryMatch (unit : List Char) (l : List Char) : Option (List Char × List Char) :=
  let d := l.takeWhile Char.isDigit
  let t2 := (l.dropWhile Char.isDigit).dropWhile Char.isWhitespace
  if d.isEmpty then none
  else if (t2.take unit.length).map asciiLower = unit then
    if isWordOpt ((t2.drop unit.length).head?) then none
    else some (d, t2.drop unit.length)
  else none

/-- Scanner for `re.sub(pattern, r'\1 <canon>', text, flags=re.IGNORECASE)`
over one row of `unit_fixes` (lines 83-84).  `prevWord` tracks whether the
previous original character is a word character (for the leading `\b`);
after a match the previous character is the unit's final letter. -/
def subUnitAux (unit canon : List Char) : Nat → Bool → List Char → List Char
  | 0, _, l => l
  | fuel + 1, prevWord, l =>
    match l with
    | [] => []
    | c :: cs =>
      if !prevWord && c.isDigit then
        match unitTryMatch unit (c :: cs) with
        | some (d, rest) => d ++ ' ' :: canon ++ subUnitAux unit canon fuel true rest
        | none => c :: subUnitAux unit canon fuel (isWordChar c) cs
      else c :: subUnitAux unit canon fuel (isWordChar c) cs

/-- The ordered `unit_fixes` table (lines 28-41): unit literal and
canonical replacement. -/
def unit_fixes : List (String × String) :=
  [("m", "meters"), ("km", "kilometers"), ("cm", "centimeters"), ("mm", "millimeters"),
   ("gb", "GB"), ("mb", "MB"), ("kb", "KB"), ("hz", "Hz"), ("mhz", "MHz"), ("ghz", "GHz"),
   ("fps", "FPS"), ("tops", "TOPS")]

/-- Apply one unit rule to the whole text. -/
def applyUnitFix (l : List Char) (rule : String × String) : List Char :=
  subUnitAux rule.1.toList rule.2.toList (l.length + 1) false l

/-- The `for pattern, replacement in self.unit_fixes.items()` loop
(lines 83-84), in insertion order. -/
def applyUnitFixes (l : List Char) : List Char := unit_fixes.foldl applyUnitFix l

/-- `re.sub(r'\s+', ' ', text)` (line 87): each maximal whitespace run
becomes a single space; `prevWs` tells whether we are inside a run. -/
def collapseFrom : Bool → List Char → List Char
  | _, [] => []
  | prevWs, c :: cs =>
    if c.isWhitespace then
      if prevWs then collapseFrom true cs
      else ' ' :: collapseFrom true cs
    else c :: collapseFrom false cs

/-- Whitespace collapsing over a list. -/
def collapseWs (l : List Char) : List Char := collapseFrom false l

/-- `MinimalSafeCorrector.correct_response` (lines 62-93): remove markdown
(bold, italic, code ticks, headers), canonicalise unit abbreviations,
collapse whitespace and strip. -/
def correct_response (text : String) : String :=
  if text = "" then text
  else
    let l0 := text.toList
    let l1 := subBoldAux (l0.length + 1) l0
    let l2 := subStarAux (l1.length + 1) l1
    let l3 := subTickAux (l2.length + 1) l2
    let l4 := subHeaderAux (l3.length + 1) l3
    let l5 := applyUnitFixes l4
    String.mk (stripList (collapseWs l5))

/-! ## Session pipeline (`process_speech`)

From `backend/main_agent_web.py`, `process_speech` (lines 215-413),
starting at the point where the STT oracle has produced the raw transcript
`sttText` (STEP 1).  The returned record carries the websocket events
sent, the orchestrator state after the run, and the trace of subsystem
invocations with the text each receives.  An uncaught exception in the
body (the `AttributeError` of `get_product_name`) lands in the outer
`except`, which sends `{"state": "idle", "error": str(e)}`. -/

/-- `filler_words` (line 251). -/
def filler_words : List String :=
  ["uh", "um", "ah", "eh", "hmm", "oh", "ok", "okay", "yeah", "yep", "nope", "mm"]

/-- Result of one `process_speech` run. -/
structure PipeResult where
  events : List WsEvent
  os : OrchState
  trace : List Stage
  deriving DecidableEq, Repr

/-- `AxiomWebAgent.query_llm` (lines 97-112): runs
`orchestrator.query_with_context(intent=intent, text=user_text)` in a
thread; its `except` branch ("System error.") is unreachable over the
total embedding. -/
def query_llm (env : Env) (os : OrchState) (user_text intent : String) : String × OrchState :=
  query_with_context env os intent user_text

/-- STEPS 6-8 of `process_speech` (lines 312-406): 3D topic detection,
template bypass, LLM generation (only when no non-empty template response
was produced), response correction, TTS synthesis and the
`speaking`+audio emission. -/
def process_speech_tail (env : Env) (os : OrchState) (intent : String) (confidence : ℚ)
    (normalized_text : String) (evs : List WsEvent) (tr : List Stage) : PipeResult :=
  -- STEP 6: 3D model topic detection (lines 315-324)
  let evs2 := match env.process_text_3d normalized_text with
    | some mi => evs ++ [WsEvent.load_3d_model mi.1 mi.2]
    | none => evs
  let tr2 := tr ++ [Stage.topicDetect3d normalized_text]
  -- STEP 6.5: template bypass (lines 330-345)
  let use_template := env.should_use_template intent confidence normalized_text
  let tr3 := tr2 ++ [Stage.templateRoute normalized_text]
  let rt0 : Option String :=
    if use_template then env.get_template_response intent normalized_text else none
  -- STEP 7: LLM response when `not response_text` (lines 350-352)
  let step7 : String × OrchState × List Stage :=
    match rt0 with
    | some rt =>
      if rt = "" then
        let r := query_llm env os normalized_text intent
        (r.1, r.2, tr3 ++ [Stage.llmGenerate normalized_text intent])
      else (rt, os, tr3)
    | none =>
      let r := query_llm env os normalized_text intent
      (r.1, r.2, tr3 ++ [Stage.llmGenerate normalized_text intent])
  let response_text := step7.1
  let os2 := step7.2.1
  -- STEP 7.5: minimal response correction (lines 358-361)
  let tr4 := step7.2.2 ++ [Stage.responseCorrect response_text]
  let corrected_response := correct_response response_text
  -- STEP 8: TTS, then `speaking` + WAV bytes (lines 367-399)
  let tr5 := tr4 ++ [Stage.ttsSynthesize corrected_response]
  let ev3 := match env.tts_generate corrected_response with
    | some samples =>
      if 0 < samples.length then
        evs2 ++ [WsEvent.speaking corrected_response intent, WsEvent.audio]
      else evs2
    | none => evs2
  ⟨ev3, os2, tr5⟩

/-- `process_speech` (lines 215-413) from the transcript on: strip,
filler/empty early exits (STEP 1, lines 250-262), hallucination filter
(STEP 2, lines 267-270), intent classification on the *uncorrected* text
(STEP 3, lines 275-276, "do this BEFORE correction"), minimal STT
correction (STEP 4, lines 282-285), vocabulary normalization (STEP 5,
line 290), keyword detection with the card trigger (lines 298-310, where
`get_product_name` raises and the outer `except` reports the error), then
the tail steps. -/
def process_speech (env : Env) (os : OrchState) (sttText : String) : PipeResult :=
  let text := pyStrip sttText
  let word_count := (pySplit text).length
  if text = "" then ⟨[.thinking, .idle], os, []⟩
  else if (word_count == 1) && filler_words.contains (pyLower text) then
    ⟨[.thinking, .idle], os, []⟩
  else if env.is_hallucination text then
    ⟨[.thinking, .idle], os, [.hallucinationCheck text]⟩
  else
    let ic := env.predict text
    let corrected_text := correct_stt text
    let normalized_text := env.normalize corrected_text
    let tr := [Stage.hallucinationCheck text, Stage.intentClassify text,
               Stage.sttCorrect text, Stage.vocabNormalize corrected_text,
               Stage.keywordDetect normalized_text]
    match detect_keyword env.mapper normalized_text with
    | some kwm =>
      match get_product_name env.mapper kwm.1 with
      | .error e => ⟨[.thinking, .error_idle e], os, tr⟩
      | .ok product_name =>
        process_speech_tail env os ic.1 ic.2 normalized_text
          [.thinking, .trigger_card kwm.1 kwm.2 product_name] tr
    | none => process_speech_tail env os ic.1 ic.2 normalized_text [.thinking] tr

theorem query_with_context_state (env : Env) (os : OrchState) (intent text : String) :
    (query_with_context env os intent text).2.state = os.state := by
  simp only [query_with_context]
  split_ifs <;> rfl

theorem process_speech_tail_state (env : Env) (os : OrchState) (intent : String)
    (confidence : ℚ) (normalized_text : String) (evs : List WsEvent) (tr : List Stage) :
    (process_speech_tail env os intent confidence normalized_text evs tr).os.state
      = os.state := by
  unfold process_speech_tail
  cases hrt : (if env.should_use_template intent confidence normalized_text then
      env.get_template_response intent normalized_text else none) with
  | none =>
    simpa [hrt, query_llm] using query_with_context_state env os intent normalized_text
  | some rt =>
    by_cases hre : rt = ""
    · simpa [hrt, hre, query_llm] using query_with_context_state env os intent normalized_text
    · simp [hrt, hre]

theorem process_speech_tail_no_handle (env : Env) (os : OrchState) (intent : String)
    (confidence : ℚ) (normalized_text : String) (evs : List WsEvent) (tr : List Stage)
    (i tx : String) (h : Stage.orchHandle i tx ∉ tr) :
    Stage.orchHandle i tx ∉
      (process_speech_tail env os intent confidence normalized_text evs tr).trace := by
  unfold process_speech_tail
  cases hrt : (if env.should_use_template intent confidence normalized_text then
      env.get_template_response intent normalized_text else none) with
  | none => simp [hrt, List.mem_append, h]
  | some rt =>
    by_cases hre : rt = ""
    · simp [hrt, hre, List.mem_append, h]
    · simp [hrt, hre, List.mem_append, h]

/-- Reduction of `process_speech` past the early exits and the keyword step
to the tail. -/
theorem process_speech_eq_tail (env : Env) (os : OrchState) (sttText : String)
    (h1 : pyStrip sttText ≠ "")
    (h2 : (((pySplit (pyStrip sttText)).length == 1)
        && filler_words.contains (pyLower (pyStrip sttText))) = false)
    (h3 : env.is_hallucination (pyStrip sttText) = false)
    (h4 : detect_keyword env.mapper (env.normalize (correct_stt (pyStrip sttText))) = none) :
    process_speech env os sttText
      = process_speech_tail env os (env.predict (pyStrip sttText)).1
          (env.predict (pyStrip sttText)).2
          (env.normalize (correct_stt (pyStrip sttText))) [.thinking]
          [Stage.hallucinationCheck (pyStrip sttText),
           Stage.intentClassify (pyStrip sttText),
           Stage.sttCorrect (pyStrip sttText),
           Stage.vocabNormalize (correct_stt (pyStrip sttText)),
           Stage.keywordDetect (env.normalize (correct_stt (pyStrip sttText)))] := by
  unfold process_speech
  simp only [if_neg h1, h2, Bool.false_eq_true, if_false, h3, h4]

/-- The tail's trace: 3D topic detection, template routing, then either
the generative path or the template path, response correction and TTS. -/
theorem process_speech_tail_trace (env : Env) (os : OrchState) (intent : String)
    (confidence : ℚ) (n : String) (evs : List WsEvent) (tr : List Stage) :
    ∃ resp,
      ((process_speech_tail env os intent confidence n evs tr).trace
          = tr ++ [Stage.topicDetect3d n, Stage.templateRoute n,
                   Stage.llmGenerate n intent, Stage.responseCorrect resp,
                   Stage.ttsSynthesize (correct_response resp)] ∨
       (process_speech_tail env os intent confidence n evs tr).trace
          = tr ++ [Stage.topicDetect3d n, Stage.templateRoute n,
                   Stage.responseCorrect resp,
                   Stage.ttsSynthesize (correct_response resp)]) := by
  unfold process_speech_tail
  cases hrt : (if env.should_use_template intent confidence n then
      env.get_template_response intent n else none) with
  | none =>
    exact ⟨(query_llm env os n intent).1, Or.inl (by simp [hrt, List.append_assoc])⟩
  | some rt =>
    by_cases hre : rt = ""
    · exact ⟨(query_llm env os n intent).1, Or.inl (by simp [hrt, hre, List.append_assoc])⟩
    · exact ⟨rt, Or.inr (by simp [hrt, hre, List.append_assoc])⟩

/-- C7 counterexample: a concrete run in which the STT correction changes
the transcript; the trace shows intent classification second, receiving
the *raw* transcript, and the phonetic correction only third — the
corrected transcript is never what the classifier sees. -/
theorem pipeline_order_counterexample :
    (process_speech envW osW "[Music] tell me about jetson").trace
        = [Stage.hallucinationCheck "[Music] tell me about jetson",
           Stage.intentClassify "[Music] tell me about jetson",
           Stage.sttCorrect "[Music] tell me about jetson",
           Stage.vocabNormalize "tell me about jetson",
           Stage.keywordDetect "tell me about jetson",
           Stage.topicDetect3d "tell me about jetson",
           Stage.templateRoute "tell me about jetson",
           Stage.llmGenerate "tell me about jetson" "equipment_query",
           Stage.responseCorrect fallback_phrase,
           Stage.ttsSynthesize fallback_phrase] ∧
    correct_stt "[Music] tell me about jetson" ≠ "[Music] tell me about jetson" ∧
    Stage.intentClassify (correct_stt "[Music] tell me about jetson")
        ∉ (process_speech envW osW "[Music] tell me about jetson").trace :=
  ⟨by decide, by decide, by decide⟩

/-- C7 (amended): in every completed pipeline run the text stages execute
in the order hallucination filtering → intent classification → phonetic
(noise) correction → vocabulary normalization → keyword detection → 3D
topic detection → template-vs-generative routing → (LLM generation when no
template hit) → response correction → TTS synthesis; the intent classifier
receives the raw stripped transcript, not the corrected one. -/
theorem pipeline_stage_order (env : Env) (os : OrchState) (sttText : String)
    (h1 : pyStrip sttText ≠ "")
    (h2 : (((pySplit (pyStrip sttText)).length == 1)
        && filler_words.contains (pyLower (pyStrip sttText))) = false)
    (h3 : env.is_hallucination (pyStrip sttText) = false)
    (h4 : detect_keyword env.mapper (env.normalize (correct_stt (pyStrip sttText))) = none) :
    ∃ resp,
      ((process_speech env os sttText).trace
          = [Stage.hallucinationCheck (pyStrip sttText),
             Stage.intentClassify (pyStrip sttText),
             Stage.sttCorrect (pyStrip sttText),
             Stage.vocabNormalize (correct_stt (pyStrip sttText)),
             Stage.keywordDetect (env.normalize (correct_stt (pyStrip sttText))),
             Stage.topicDetect3d (env.normalize (correct_stt (pyStrip sttText))),
             Stage.templateRoute (env.normalize (correct_stt (pyStrip sttText))),
             Stage.llmGenerate (env.normalize (correct_stt (pyStrip sttText)))
               (env.predict (pyStrip sttText)).1,
             Stage.responseCorrect resp,
             Stage.ttsSynthesize (correct_response resp)] ∨
       (process_speech env os sttText).trace
          = [Stage.hallucinationCheck (pyStrip sttText),
             Stage.intentClassify (pyStrip sttText),
             Stage.sttCorrect (pyStrip sttText),
             Stage.vocabNormalize (correct_stt (pyStrip sttText)),
             Stage.keywordDetect (env.normalize (correct_stt (pyStrip sttText))),
             Stage.topicDetect3d (env.normalize (correct_stt (pyStrip sttText))),
             Stage.templateRoute (env.normalize (correct_stt (pyStrip sttText))),
             Stage.responseCorrect resp,
             Stage.ttsSynthesize (correct_response resp)]) := by
  rw [process_speech_eq_tail env os sttText h1 h2 h3 h4]
  obtain ⟨resp, hc⟩ := process_speech_tail_trace env os
    (env.predict (pyStrip sttText)).1 (env.predict (pyStrip sttText)).2
    (env.normalize (correct_stt (pyStrip sttText))) [.thinking]
    [Stage.hallucinationCheck (pyStrip sttText),
     Stage.intentClassify (pyStrip sttText),
     Stage.sttCorrect (pyStrip sttText),
     Stage.vocabNormalize (correct_stt (pyStrip sttText)),
     Stage.keywordDetect (env.normalize (correct_stt (pyStrip sttText)))]
  exact ⟨resp, by simpa using hc⟩

/-- Witness for `pipeline_stage_order` at a concrete run whose correction
changes the transcript. -/
theorem pipeline_stage_order_witness :
    (pyStrip "[Music] tell me about jetson" ≠ "") ∧
    ∃ resp,
      ((process_speech envW osW "[Music] tell me about jetson").trace
          = [Stage.hallucinationCheck (pyStrip "[Music] tell me about jetson"),
             Stage.intentClassify (pyStrip "[Music] tell me about jetson"),
             Stage.sttCorrect (pyStrip "[Music] tell me about jetson"),
             Stage.vocabNormalize (correct_stt (pyStrip "[Music] tell me about jetson")),
             Stage.keywordDetect (envW.normalize (correct_stt (pyStrip "[Music] tell me about jetson"))),
             Stage.topicDetect3d (envW.normalize (correct_stt (pyStrip "[Music] tell me about jetson"))),
             Stage.templateRoute (envW.normalize (correct_stt (pyStrip "[Music] tell me about jetson"))),
             Stage.llmGenerate (envW.normalize (correct_stt (pyStrip "[Music] tell me about jetson")))
               (envW.predict (pyStrip "[Music] tell me about jetson")).1,
             Stage.responseCorrect resp,
             Stage.ttsSynthesize (correct_response resp)] ∨
       (process_speech envW osW "[Music] tell me about jetson").trace
          = [Stage.hallucinationCheck (pyStrip "[Music] tell me about jetson"),
             Stage.intentClassify (pyStrip "[Music] tell me about jetson"),
             Stage.sttCorrect (pyStrip "[Music] tell me about jetson"),
             Stage.vocabNormalize (correct_stt (pyStrip "[Music] tell me about jetson")),
             Stage.keywordDetect (envW.normalize (correct_stt (pyStrip "[Music] tell me about jetson"))),
             Stage.topicDetect3d (envW.normalize (correct_stt (pyStrip "[Music] tell me about jetson"))),
             Stage.templateRoute (envW.normalize (correct_stt (pyStrip "[Music] tell me about jetson"))),
             Stage.responseCorrect resp,
             Stage.ttsSynthesize (correct_response resp)]) :=
  ⟨by decide,
   pipeline_stage_order envW osW "[Music] tell me about jetson"
     (by decide) (by decide) (by decide) (by decide)⟩

/-- C9: a live-session pipeline run never goes through the router
`handle`: the dialogue `ConversationState` (sub-query queue, follow-up
flag) is untouched by every run, no run ever enters `handle` (no
`orchHandle` mark in any trace), and a run that reaches generation without
a template hit passes the normalized text and the classified intent
directly to `query_with_context`. -/
theorem live_pipeline_never_calls_handle (env : Env) (os : OrchState) (sttText : String) :
    (process_speech env os sttText).os.state = os.state ∧
    (∀ i tx, Stage.orchHandle i tx ∉ (process_speech env os sttText).trace) ∧
    (pyStrip sttText ≠ "" →
      (((pySplit (pyStrip sttText)).length == 1)
          && filler_words.contains (pyLower (pyStrip sttText))) = false →
      env.is_hallucination (pyStrip sttText) = false →
      detect_keyword env.mapper (env.normalize (correct_stt (pyStrip sttText))) = none →
      (if env.should_use_template (env.predict (pyStrip sttText)).1
            (env.predict (pyStrip sttText)).2
            (env.normalize (correct_stt (pyStrip sttText))) then
          env.get_template_response (env.predict (pyStrip sttText)).1
            (env.normalize (correct_stt (pyStrip sttText)))
        else none) = none →
      (process_speech env os sttText).os
        = (query_with_context env os (env.predict (pyStrip sttText)).1
            (env.normalize (correct_stt (pyStrip sttText)))).2 ∧
      Stage.llmGenerate (env.normalize (correct_stt (pyStrip sttText)))
          (env.predict (pyStrip sttText)).1 ∈ (process_speech env os sttText).trace) := by
  refine ⟨?_, ?_, ?_⟩
  · simp only [process_speech]
    split_ifs with ha hb hc
    · rfl
    · rfl
    · rfl
    · split
      · split
        · rfl
        · exact process_speech_tail_state env os _ _ _ _ _
      · exact process_speech_tail_state env os _ _ _ _ _
  · intro i tx
    simp only [process_speech]
    split_ifs with ha hb hc
    · simp
    · simp
    · simp
    · split
      · split
        · simp
        · exact process_speech_tail_no_handle env os _ _ _ _ _ i tx (by simp)
      · exact process_speech_tail_no_handle env os _ _ _ _ _ i tx (by simp)
  · intro h1 h2 h3 h4 h5
    rw [process_speech_eq_tail env os sttText h1 h2 h3 h4]
    simp only [process_speech_tail]
    rw [h5]
    constructor
    · rfl
    · simp

/-- Witness for `live_pipeline_never_calls_handle`: a concrete run with no
template hit reaches `query_with_context` directly. -/
theorem live_pipeline_never_calls_handle_witness :
    (process_speech envW osW "tell me about jetson").os
        = (query_with_context envW osW (envW.predict (pyStrip "tell me about jetson")).1
            (envW.normalize (correct_stt (pyStrip "tell me about jetson")))).2 ∧
      Stage.llmGenerate (envW.normalize (correct_stt (pyStrip "tell me about jetson")))
          (envW.predict (pyStrip "tell me about jetson")).1
        ∈ (process_speech envW osW "tell me about jetson").trace :=
  (live_pipeline_never_calls_handle envW osW "tell me about jetson").2.2
    (by decide) (by decide) (by decide) (by decide) (by decide)

/-- C10: `get_product_name` reads the attribute `carousel_to_inventory`,
which `__init__` never assigns, so on every mapper built by `__init__` it
fails with `AttributeError` for every card index; consequently every
pipeline turn whose normalized text matches a product keyword dies in the
card-trigger step: the run emits only `thinking` followed by the
error-idle report of the `AttributeError`, the card-trigger event is never
sent, and nothing downstream (template, LLM, TTS) runs. -/
theorem get_product_name_always_fails
    (inv : List Product) (car : List (Nat × Nat)) (km : List (String × Nat)) (idx : Nat) :
    get_product_name (mkKeywordMapper inv car km) idx = .error attrErrorMsg ∧
    (∀ (env : Env) (os : OrchState) (sttText : String) (cidx : Nat) (kw : String),
      env.mapper.carousel_to_inventory = none →
      pyStrip sttText ≠ "" →
      (((pySplit (pyStrip sttText)).length == 1)
          && filler_words.contains (pyLower (pyStrip sttText))) = false →
      env.is_hallucination (pyStrip sttText) = false →
      detect_keyword env.mapper (env.normalize (correct_stt (pyStrip sttText)))
          = some (cidx, kw) →
      process_speech env os sttText
        = ⟨[.thinking, .error_idle attrErrorMsg], os,
           [Stage.hallucinationCheck (pyStrip sttText),
            Stage.intentClassify (pyStrip sttText),
            Stage.sttCorrect (pyStrip sttText),
            Stage.vocabNormalize (correct_stt (pyStrip sttText)),
            Stage.keywordDetect (env.normalize (correct_stt (pyStrip sttText)))]⟩) := by
  constructor
  · rfl
  · intro env os sttText cidx kw hattr h1 h2 h3 h5
    unfold process_speech
    simp only [if_neg h1, h2, Bool.false_eq_true, if_false, h3, h5]
    unfold get_product_name
    rw [hattr]

/-- Environment with a keyword map that matches "jetson". -/
def envK : Env := { envW with mapper := mkKeywordMapper [] [] [("jetson", 0)] }

/-- Witness for `get_product_name_always_fails`: a concrete turn matching
the keyword "jetson" ends in the attribute-error report. -/
theorem get_product_name_always_fails_witness :
    get_product_name (mkKeywordMapper [] [] [("jetson", 0)]) 0 = .error attrErrorMsg ∧
    process_speech envK osW "tell me about jetson"
      = ⟨[.thinking, .error_idle attrErrorMsg], osW,
         [Stage.hallucinationCheck (pyStrip "tell me about jetson"),
          Stage.intentClassify (pyStrip "tell me about jetson"),
          Stage.sttCorrect (pyStrip "tell me about jetson"),
          Stage.vocabNormalize (correct_stt (pyStrip "tell me about jetson")),
          Stage.keywordDetect (envK.normalize (correct_stt (pyStrip "tell me about jetson")))]⟩ :=
  ⟨(get_product_name_always_fails [] [] [("jetson", 0)] 0).1,
   (get_product_name_always_fails [] [] [("jetson", 0)] 0).2 envK osW
     "tell me about jetson" 0 "jetson" rfl (by decide) (by decide) (by decide) (by decide)⟩

/-! ## Idempotence of `correct_response` (markdown- and unit-free inputs)

The markdown passes only act on `*`, backtick and `#`; on inputs without
those characters they are the identity.  The unit passes only act on
matches of `\b(\d+)\s*<unit>\b`; `hasUnitMatch` decides the existence of
such a match, and whitespace collapsing and stripping cannot create one.
Together these give idempotence of `correct_response` on inputs containing
no markdown characters and no unit-abbreviation token. -/

theorem subBoldAux_id : ∀ (fuel : Nat) (l : List Char),
    (∀ c ∈ l, c ≠ '*') → subBoldAux fuel l = l := by
  intro fuel
  induction fuel with
  | zero => intro l _; rfl
  | succ n ih =>
    intro l h
    match l with
    | [] => rfl
    | c :: cs =>
      have hc : c ≠ '*' := h c (List.mem_cons_self c cs)
      simp only [subBoldAux, if_neg hc]
      rw [ih cs (fun d hd => h d (List.mem_cons_of_mem c hd))]

theorem subStarAux_id : ∀ (fuel : Nat) (l : List Char),
    (∀ c ∈ l, c ≠ '*') → subStarAux fuel l = l := by
  intro fuel
  induction fuel with
  | zero => intro l _; rfl
  | succ n ih =>
    intro l h
    match l with
    | [] => rfl
    | c :: cs =>
      have hc : c ≠ '*' := h c (List.mem_cons_self c cs)
      simp only [subStarAux, if_neg hc]
      rw [ih cs (fun d hd => h d (List.mem_cons_of_mem c hd))]

theorem subTickAux_id : ∀ (fuel : Nat) (l : List Char),
    (∀ c ∈ l, c ≠ backtickChar) → subTickAux fuel l = l := by
  intro fuel
  induction fuel with
  | zero => intro l _; rfl
  | succ n ih =>
    intro l h
    match l with
    | [] => rfl
    | c :: cs =>
      have hc : c ≠ backtickChar := h c (List.mem_cons_self c cs)
      simp only [subTickAux, if_neg hc]
      rw [ih cs (fun d hd => h d (List.mem_cons_of_mem c hd))]

theorem subHeaderAux_id : ∀ (fuel : Nat) (l : List Char),
    (∀ c ∈ l, c ≠ '#') → subHeaderAux fuel l = l := by
  intro fuel
  induction fuel with
  | zero => intro l _; rfl
  | succ n ih =>
    intro l h
    match l with
    | [] => rfl
    | c :: cs =>
      have hc : c ≠ '#' := h c (List.mem_cons_self c cs)
      simp only [subHeaderAux, if_neg hc]
      rw [ih cs (fun d hd => h d (List.mem_cons_of_mem c hd))]

/-- Existence of a match of `\b(\d+)\s*<unit>\b` in the text, scanned with
the same word-boundary context as `subUnitAux`. -/
def hasUnitMatch (unit : List Char) : Bool → List Char → Bool
  | _, [] => false
  | prevWord, c :: cs =>
    (!prevWord && c.isDigit && (unitTryMatch unit (c :: cs)).isSome)
      || hasUnitMatch unit (isWordChar c) cs

theorem subUnitAux_id (unit canon : List Char) : ∀ (fuel : Nat) (pw : Bool) (l : List Char),
    hasUnitMatch unit pw l = false → subUnitAux unit canon fuel pw l = l := by
  intro fuel
  induction fuel with
  | zero => intro pw l _; rfl
  | succ n ih =>
    intro pw l h
    match l with
    | [] => rfl
    | c :: cs =>
      rw [hasUnitMatch] at h
      rcases Bool.or_eq_false_iff.mp h with ⟨hA, hB⟩
      cases hcd : (!pw && c.isDigit) with
      | false =>
        simp only [subUnitAux, hcd, Bool.false_eq_true, if_false]
        rw [ih (isWordChar c) cs hB]
      | true =>
        obtain ⟨ha, hb⟩ : (!pw) = true ∧ c.isDigit = true := by simpa using hcd
        have hnm : (unitTryMatch unit (c :: cs)).isSome = false := by
          rcases Bool.and_eq_false_iff.mp hA with h1 | h2
          · rcases Bool.and_eq_false_iff.mp h1 with h1a | h1b
            · rw [ha] at h1a
              cases h1a
            · rw [hb] at h1b
              cases h1b
          · exact h2
        have hnone : unitTryMatch unit (c :: cs) = none := by
          cases hu : unitTryMatch unit (c :: cs) with
          | none => rfl
          | some v => rw [hu] at hnm; cases hnm
        simp only [subUnitAux, hcd, if_true, hnone]
        rw [ih (isWordChar c) cs hB]

theorem applyUnitFixes_id (l : List Char)
    (h : ∀ rule ∈ unit_fixes, hasUnitMatch rule.1.toList false l = false) :
    applyUnitFixes l = l := by
  unfold applyUnitFixes
  have hgen : ∀ (rules : List (String × String)),
      (∀ rule ∈ rules, hasUnitMatch rule.1.toList false l = false) →
      rules.foldl applyUnitFix l = l := by
    intro rules
    induction rules with
    | nil => intro _; rfl
    | cons r rs ih =>
      intro hr
      have h1 : applyUnitFix l r = l :=
        subUnitAux_id r.1.toList r.2.toList (l.length + 1) false l
          (hr r (List.mem_cons_self r rs))
      rw [List.foldl_cons, h1]
      exact ih (fun q hq => hr q (List.mem_cons_of_mem r hq))
  exact hgen unit_fixes h

theorem mem_dropWhileChar {c : Char} {p : Char → Bool} :
    ∀ l : List Char, c ∈ l.dropWhile p → c ∈ l := by
  intro l
  induction l with
  | nil => intro h; simp at h
  | cons d ds ih =>
    intro h
    rw [List.dropWhile_cons] at h
    by_cases hd : p d = true
    · rw [if_pos hd] at h
      exact List.mem_cons_of_mem d (ih h)
    · rw [if_neg hd] at h
      exact h

theorem mem_collapseFrom {c : Char} :
    ∀ (l : List Char) (b : Bool), c ∈ collapseFrom b l → c = ' ' ∨ c ∈ l := by
  intro l
  induction l with
  | nil => intro b h; simp [collapseFrom] at h
  | cons d ds ih =>
    intro b h
    rw [collapseFrom] at h
    by_cases hd : d.isWhitespace = true
    · rw [if_pos hd] at h
      cases b with
      | true =>
        rcases ih true h with h1 | h1
        · exact Or.inl h1
        · exact Or.inr (List.mem_cons_of_mem d h1)
      | false =>
        rcases List.mem_cons.mp h with h1 | h1
        · exact Or.inl h1
        · rcases ih true h1 with h2 | h2
          · exact Or.inl h2
          · exact Or.inr (List.mem_cons_of_mem d h2)
    · rw [if_neg hd] at h
      rcases List.mem_cons.mp h with h1 | h1
      · exact Or.inr (h1 ▸ List.mem_cons_self d ds)
      · rcases ih false h1 with h2 | h2
        · exact Or.inl h2
        · exact Or.inr (List.mem_cons_of_mem d h2)

theorem mem_rstripList {c : Char} : ∀ l : List Char, c ∈ rstripList l → c ∈ l := by
  intro l
  induction l with
  | nil => intro h; simp [rstripList] at h
  | cons d ds ih =>
    intro h
    rw [rstripList] at h
    cases h' : rstripList ds with
    | nil =>
      rw [h'] at h
      by_cases hd : d.isWhitespace = true
      · rw [if_pos hd] at h; simp at h
      · rw [if_neg hd] at h
        rcases List.mem_singleton.mp h with rfl
        exact List.mem_cons_self c ds
    | cons r rs =>
      rw [h'] at h
      rcases List.mem_cons.mp h with h1 | h1
      · exact h1 ▸ List.mem_cons_self d ds
      · exact List.mem_cons_of_mem d (ih (h' ▸ h1))

/-- Every whitespace character of the list is a plain space. -/
def allWsSpace (l : List Char) : Prop := ∀ c ∈ l, c.isWhitespace = true → c = ' '

/-- No two adjacent whitespace characters. -/
def noTwoWs : List Char → Prop
  | [] => True
  | [_] => True
  | a :: b :: rest => ¬(a.isWhitespace = true ∧ b.isWhitespace = true) ∧ noTwoWs (b :: rest)

theorem noTwoWs_tail {c : Char} {cs : List Char} (h : noTwoWs (c :: cs)) : noTwoWs cs := by
  cases cs with
  | nil => trivial
  | cons d ds => exact h.2

theorem collapseFrom_head_true :
    ∀ (cs : List Char) (c : Char), (collapseFrom true cs).head? = some c →
      c.isWhitespace = false := by
  intro cs
  induction cs with
  | nil => intro c h; simp [collapseFrom] at h
  | cons d ds ih =>
    intro c h
    rw [collapseFrom] at h
    by_cases hd : d.isWhitespace = true
    · rw [if_pos hd, if_pos rfl] at h
      exact ih c h
    · rw [if_neg hd] at h
      simp only [List.head?_cons, Option.some.injEq] at h
      rw [← h]
      exact Bool.eq_false_iff.mpr hd

theorem collapseFrom_true_eq_false :
    ∀ l : List Char, (∀ c, l.head? = some c → c.isWhitespace = false) →
      collapseFrom true l = collapseFrom false l := by
  intro l h
  cases l with
  | nil => rfl
  | cons d ds =>
    have hd : d.isWhitespace = false := h d rfl
    rw [collapseFrom, collapseFrom, if_neg (by rw [hd]; exact Bool.false_ne_true),
      if_neg (by rw [hd]; exact Bool.false_ne_true)]

theorem allWsSpace_collapseFrom : ∀ (l : List Char) (b : Bool),
    allWsSpace (collapseFrom b l) := by
  intro l
  induction l with
  | nil => intro b c h; simp [collapseFrom] at h
  | cons d ds ih =>
    intro b c h hws
    rw [collapseFrom] at h
    by_cases hd : d.isWhitespace = true
    · rw [if_pos hd] at h
      cases b with
      | true => exact ih true c h hws
      | false =>
        rcases List.mem_cons.mp h with h1 | h1
        · exact h1
        · exact ih true c h1 hws
    · rw [if_neg hd] at h
      rcases List.mem_cons.mp h with h1 | h1
      · exact absurd (h1 ▸ hws) hd
      · exact ih false c h1 hws

theorem noTwoWs_collapseFrom : ∀ (l : List Char) (b : Bool),
    noTwoWs (collapseFrom b l) := by
  intro l
  induction l with
  | nil => intro b; trivial
  | cons d ds ih =>
    intro b
    rw [collapseFrom]
    by_cases hd : d.isWhitespace = true
    · rw [if_pos hd]
      cases b with
      | true => exact ih true
      | false =>
        rw [if_neg (by simp)]
        cases hX : collapseFrom true ds with
        | nil => trivial
        | cons x xs =>
          refine ⟨?_, hX ▸ ih true⟩
          rintro ⟨_, hxw⟩
          have := collapseFrom_head_true ds x (by rw [hX]; rfl)
          rw [hxw] at this
          cases this
    · rw [if_neg hd]
      cases hX : collapseFrom false ds with
      | nil => trivial
      | cons x xs =>
        refine ⟨?_, hX ▸ ih false⟩
        rintro ⟨hdw, _⟩
        exact hd hdw

theorem collapseFrom_id : ∀ l : List Char, allWsSpace l → noTwoWs l →
    collapseFrom false l = l := by
  intro l
  induction l with
  | nil => intro _ _; rfl
  | cons d ds ih =>
    intro h1 h2
    rw [collapseFrom]
    by_cases hd : d.isWhitespace = true
    · rw [if_pos hd, if_neg (by simp)]
      have hdsp : d = ' ' := h1 d (List.mem_cons_self d ds) hd
      cases ds with
      | nil => simp [collapseFrom, hdsp]
      | cons e es =>
        have hew : e.isWhitespace = false := by
          by_contra hc
          rw [Bool.not_eq_false] at hc
          exact h2.1 ⟨hd, hc⟩
        rw [collapseFrom_true_eq_false (e :: es)
          (by intro c hc; simp only [List.head?_cons, Option.some.injEq] at hc; rw [← hc]; exact hew)]
        rw [ih (fun c hc hw => h1 c (List.mem_cons_of_mem d hc) hw) (noTwoWs_tail h2)]
        rw [hdsp]
    · rw [if_neg hd]
      rw [ih (fun c hc hw => h1 c (List.mem_cons_of_mem d hc) hw) (noTwoWs_tail h2)]

theorem rstripList_decomp : ∀ l : List Char,
    ∃ m, l = rstripList l ++ m ∧ ∀ c ∈ m, c.isWhitespace = true := by
  intro l
  induction l with
  | nil => exact ⟨[], rfl, by simp⟩
  | cons d ds ih =>
    obtain ⟨m, hds, hm⟩ := ih
    rw [rstripList]
    cases h' : rstripList ds with
    | nil =>
      rw [h'] at hds
      by_cases hd : d.isWhitespace = true
      · rw [if_pos hd]
        refine ⟨d :: m, by simpa using hds, ?_⟩
        intro c hc
        rcases List.mem_cons.mp hc with rfl | hc
        · exact hd
        · exact hm c hc
      · rw [if_neg hd]
        exact ⟨m, by simpa using hds, hm⟩
    | cons r rs =>
      rw [h'] at hds
      exact ⟨m, by rw [List.cons_append, ← hds], hm⟩

theorem rstripList_head? : ∀ l : List Char,
    rstripList l = [] ∨ (rstripList l).head? = l.head? := by
  intro l
  cases l with
  | nil => exact Or.inl rfl
  | cons d ds =>
    rw [rstripList]
    cases h' : rstripList ds with
    | nil =>
      by_cases hd : d.isWhitespace = true
      · rw [if_pos hd]; exact Or.inl rfl
      · rw [if_neg hd]; exact Or.inr rfl
    | cons r rs => exact Or.inr rfl

theorem rstrip_rstrip : ∀ l : List Char, rstripList (rstripList l) = rstripList l := by
  intro l
  induction l with
  | nil => rfl
  | cons d ds ih =>
    cases h' : rstripList ds with
    | nil =>
      have hdds : rstripList (d :: ds) = if d.isWhitespace then [] else [d] := by
        rw [rstripList, h']
      by_cases hd : d.isWhitespace = true
      · rw [hdds, if_pos hd]; rfl
      · rw [hdds, if_neg hd]
        simp [rstripList, hd]
    | cons r rs =>
      have hdds : rstripList (d :: ds) = d :: r :: rs := by
        rw [rstripList, h']
      rw [h'] at ih
      rw [hdds, rstripList, ih]

theorem ws_cases {c : Char} (h : c.isWhitespace = true) :
    c = ' ' ∨ c = '\t' ∨ c = '\r' ∨ c = '\n' := by
  simp only [Char.isWhitespace, Bool.or_eq_true, decide_eq_true_eq] at h
  tauto

theorem ws_not_word {c : Char} (h : c.isWhitespace = true) : isWordChar c = false := by
  rcases ws_cases h with rfl | rfl | rfl | rfl <;> decide

theorem ws_not_digit {c : Char} (h : c.isWhitespace = true) : c.isDigit = false := by
  rcases ws_cases h with rfl | rfl | rfl | rfl <;> decide

theorem ws_asciiLower {c : Char} (h : c.isWhitespace = true) : asciiLower c = c := by
  rcases ws_cases h with rfl | rfl | rfl | rfl <;> decide

theorem dropWhileWs_head : ∀ (l : List Char) (c : Char),
    (l.dropWhile Char.isWhitespace).head? = some c → c.isWhitespace = false := by
  intro l
  induction l with
  | nil => intro c h; simp at h
  | cons d ds ih =>
    intro c h
    rw [List.dropWhile_cons] at h
    by_cases hd : d.isWhitespace = true
    · rw [if_pos hd] at h
      exact ih c h
    · rw [if_neg hd] at h
      simp only [List.head?_cons, Option.some.injEq] at h
      rw [← h]
      exact Bool.eq_false_iff.mpr hd

theorem dropWhile_of_head_not :
    ∀ l : List Char, (∀ c, l.head? = some c → c.isWhitespace = false) →
      l.dropWhile Char.isWhitespace = l := by
  intro l h
  cases l with
  | nil => rfl
  | cons d ds =>
    rw [List.dropWhile_cons, if_neg (by rw [h d rfl]; exact Bool.false_ne_true)]

theorem stripList_head (l : List Char) (c : Char) :
    (stripList l).head? = some c → c.isWhitespace = false := by
  intro h
  unfold stripList at h
  rcases rstripList_head? (l.dropWhile Char.isWhitespace) with he | he
  · rw [he] at h
    simp at h
  · rw [he] at h
    exact dropWhileWs_head l c h

theorem stripList_stable (l : List Char) : stripList (stripList l) = stripList l := by
  conv_lhs => rw [stripList]
  rw [dropWhile_of_head_not (stripList l) (stripList_head l)]
  unfold stripList
  exact rstrip_rstrip _

theorem noTwoWs_dropWhile : ∀ l : List Char, noTwoWs l →
    noTwoWs (l.dropWhile Char.isWhitespace) := by
  intro l
  induction l with
  | nil => intro h; trivial
  | cons d ds ih =>
    intro h
    rw [List.dropWhile_cons]
    by_cases hd : d.isWhitespace = true
    · rw [if_pos hd]
      exact ih (noTwoWs_tail h)
    · rw [if_neg hd]
      exact h

theorem noTwoWs_rstripList : ∀ l : List Char, noTwoWs l → noTwoWs (rstripList l) := by
  intro l
  induction l with
  | nil => intro h; trivial
  | cons d ds ih =>
    intro h
    rw [rstripList]
    cases h' : rstripList ds with
    | nil =>
      by_cases hd : d.isWhitespace = true
      · rw [if_pos hd]; trivial
      · rw [if_neg hd]; trivial
    | cons r rs =>
      cases ds with
      | nil => simp [rstripList] at h'
      | cons e es =>
        rcases rstripList_head? (e :: es) with he | he
        · rw [h'] at he
          cases he
        · rw [h'] at he
          simp only [List.head?_cons, Option.some.injEq] at he
          refine ⟨?_, h' ▸ ih (noTwoWs_tail h)⟩
          rintro ⟨hdw, hrw⟩
          rw [he] at hrw
          exact h.1 ⟨hdw, hrw⟩

theorem mem_stripList {c : Char} (l : List Char) (h : c ∈ stripList l) : c ∈ l := by
  unfold stripList at h
  exact mem_dropWhileChar l (mem_rstripList _ h)

theorem hasUnitMatch_mono (u : List Char) : ∀ l : List Char,
    hasUnitMatch u true l = true → hasUnitMatch u false l = true := by
  intro l h
  cases l with
  | nil => simp [hasUnitMatch] at h
  | cons c cs =>
    rw [hasUnitMatch] at h
    simp only [Bool.not_true, Bool.false_and, Bool.false_or] at h
    rw [hasUnitMatch]
    simp only [Bool.or_eq_true]
    exact Or.inr h

theorem hasUnitMatch_lstrip (u : List Char) : ∀ l : List Char,
    hasUnitMatch u false (l.dropWhile Char.isWhitespace) = true →
    hasUnitMatch u false l = true := by
  intro l
  induction l with
  | nil => intro h; simpa using h
  | cons d ds ih =>
    intro h
    rw [List.dropWhile_cons] at h
    by_cases hd : d.isWhitespace = true
    · rw [if_pos hd] at h
      rw [hasUnitMatch, ws_not_word hd]
      simp only [Bool.or_eq_true]
      exact Or.inr (ih h)
    · rw [if_neg hd] at h
      exact h

theorem takeWhile_dropWhile_append {p : Char → Bool} :
    ∀ (x m : List Char), x.dropWhile p ≠ [] →
      (x ++ m).takeWhile p = x.takeWhile p ∧ (x ++ m).dropWhile p = x.dropWhile p ++ m := by
  intro x
  induction x with
  | nil => intro m h; exact absurd rfl h
  | cons c cs ih =>
    intro m h
    by_cases hc : p c = true
    · rw [List.dropWhile_cons, if_pos hc] at h
      obtain ⟨ht, hdr⟩ := ih m h
      constructor
      · rw [List.cons_append, List.takeWhile_cons, if_pos hc, ht, List.takeWhile_cons,
          if_pos hc]
      · rw [List.cons_append, List.dropWhile_cons, if_pos hc, hdr, List.dropWhile_cons,
          if_pos hc]
    · constructor
      · rw [List.cons_append, List.takeWhile_cons, if_neg hc, List.takeWhile_cons, if_neg hc]
      · rw [List.cons_append, List.dropWhile_cons, if_neg hc, List.dropWhile_cons, if_neg hc,
          List.cons_append]

theorem unitTryMatch_isSome_iff (u l : List Char) :
    (unitTryMatch u l).isSome = true ↔
      ((l.takeWhile Char.isDigit).isEmpty = false ∧
       (((l.dropWhile Char.isDigit).dropWhile Char.isWhitespace).take u.length).map asciiLower
           = u ∧
       isWordOpt
         ((((l.dropWhile Char.isDigit).dropWhile Char.isWhitespace).drop u.length).head?)
           = false) := by
  simp only [unitTryMatch]
  by_cases h1 : (l.takeWhile Char.isDigit).isEmpty = true
  · rw [if_pos h1]
    constructor
    · intro h
      exact absurd h Bool.false_ne_true
    · rintro ⟨ha, -, -⟩
      rw [h1] at ha
      exact absurd ha.symm Bool.false_ne_true
  · rw [if_neg h1]
    have h1' : (l.takeWhile Char.isDigit).isEmpty = false := by simpa using h1
    by_cases h2 : (((l.dropWhile Char.isDigit).dropWhile Char.isWhitespace).take
        u.length).map asciiLower = u
    · rw [if_pos h2]
      by_cases h3 : isWordOpt
          ((((l.dropWhile Char.isDigit).dropWhile Char.isWhitespace).drop
            u.length).head?) = true
      · rw [if_pos h3]
        constructor
        · intro h
          exact absurd h Bool.false_ne_true
        · rintro ⟨-, -, hw⟩
          rw [h3] at hw
          exact absurd hw.symm Bool.false_ne_true
      · rw [if_neg h3]
        have h3' : isWordOpt
            ((((l.dropWhile Char.isDigit).dropWhile Char.isWhitespace).drop
              u.length).head?) = false := by simpa using h3
        constructor
        · intro _
          exact ⟨h1', h2, h3'⟩
        · intro _
          rfl
    · rw [if_neg h2]
      constructor
      · intro h
        exact absurd h Bool.false_ne_true
      · rintro ⟨-, hm, -⟩
        exact absurd hm h2

theorem unitTryMatch_append (u : List Char) (hu : u ≠ []) (x m : List Char)
    (hm : ∀ c ∈ m, c.isWhitespace = true)
    (h : (unitTryMatch u x).isSome = true) : (unitTryMatch u (x ++ m)).isSome = true := by
  obtain ⟨h1, h2, h3⟩ := (unitTryMatch_isSome_iff u x).mp h
  set t2 := (x.dropWhile Char.isDigit).dropWhile Char.isWhitespace with ht2
  have ht2ne : t2 ≠ [] := by
    intro he
    rw [he] at h2
    simp at h2
    exact hu h2
  have hd1 : x.dropWhile Char.isDigit ≠ [] := by
    intro he
    rw [ht2, he] at ht2ne
    exact ht2ne rfl
  obtain ⟨_, hdig⟩ := takeWhile_dropWhile_append x m hd1
  obtain ⟨htk, _⟩ := takeWhile_dropWhile_append x m hd1
  have hws1 : (x.dropWhile Char.isDigit).dropWhile Char.isWhitespace ≠ [] := ht2ne
  have hlen : u.length ≤ t2.length := by
    have := congrArg List.length h2
    simp only [List.length_map, List.length_take] at this
    omega
  refine (unitTryMatch_isSome_iff u (x ++ m)).mpr ⟨?_, ?_, ?_⟩
  · rw [htk]
    exact h1
  · rw [hdig, (takeWhile_dropWhile_append (x.dropWhile Char.isDigit) m hws1).2,
      ← ht2, List.take_append_of_le_length hlen]
    exact h2
  · rw [hdig, (takeWhile_dropWhile_append (x.dropWhile Char.isDigit) m hws1).2,
      ← ht2, List.drop_append_of_le_length hlen]
    cases hdr : (t2.drop u.length) with
    | nil =>
      cases m with
      | nil => simp [isWordOpt]
      | cons w ws =>
        simp only [List.nil_append, List.head?_cons]
        rw [isWordOpt]
        exact ws_not_word (hm w (List.mem_cons_self w ws))
    | cons e es =>
      rw [hdr] at h3
      simpa using h3

theorem hasUnitMatch_append (u : List Char) (hu : u ≠ []) :
    ∀ (a : List Char) (m : List Char) (pw : Bool), (∀ c ∈ m, c.isWhitespace = true) →
    hasUnitMatch u pw a = true → hasUnitMatch u pw (a ++ m) = true := by
  intro a
  induction a with
  | nil => intro m pw _ h; simp [hasUnitMatch] at h
  | cons c cs ih =>
    intro m pw hm h
    rw [hasUnitMatch] at h
    rw [List.cons_append, hasUnitMatch]
    simp only [Bool.or_eq_true] at h ⊢
    rcases h with hA | hB
    · left
      simp only [Bool.and_eq_true] at hA ⊢
      obtain ⟨⟨hp, hd⟩, hs⟩ := hA
      exact ⟨⟨hp, hd⟩, unitTryMatch_append u hu (c :: cs) m hm hs⟩
    · exact Or.inr (ih m (isWordChar c) hm hB)

theorem hasUnitMatch_rstrip (u : List Char) (hu : u ≠ []) (l : List Char) (pw : Bool)
    (h : hasUnitMatch u pw (rstripList l) = true) : hasUnitMatch u pw l = true := by
  obtain ⟨m, hl, hm⟩ := rstripList_decomp l
  rw [hl]
  exact hasUnitMatch_append u hu (rstripList l) m pw hm h

theorem collapse_dropWhile_digit : ∀ l : List Char,
    (collapseFrom false l).dropWhile Char.isDigit
      = collapseFrom false (l.dropWhile Char.isDigit) := by
  intro l
  induction l with
  | nil => rfl
  | cons c cs ih =>
    by_cases hc : c.isWhitespace = true
    · have hnd : c.isDigit = false := ws_not_digit hc
      rw [collapseFrom, if_pos hc, if_neg (by simp), List.dropWhile_cons,
        if_neg (by decide), List.dropWhile_cons, if_neg (by rw [hnd]; exact Bool.false_ne_true),
        collapseFrom, if_pos hc, if_neg (by simp)]
    · by_cases hd : c.isDigit = true
      · rw [collapseFrom, if_neg hc, List.dropWhile_cons, if_pos hd, ih,
          List.dropWhile_cons, if_pos hd]
      · rw [collapseFrom, if_neg hc, List.dropWhile_cons, if_neg hd,
          List.dropWhile_cons, if_neg hd, collapseFrom, if_neg hc]

theorem collapse_dropWhile_ws : ∀ (l : List Char) (b : Bool),
    (collapseFrom b l).dropWhile Char.isWhitespace
      = collapseFrom false (l.dropWhile Char.isWhitespace) := by
  intro l
  induction l with
  | nil => intro b; rfl
  | cons c cs ih =>
    intro b
    by_cases hc : c.isWhitespace = true
    · cases b with
      | true =>
        rw [collapseFrom, if_pos hc, if_pos rfl, ih true, List.dropWhile_cons, if_pos hc]
      | false =>
        rw [collapseFrom, if_pos hc, if_neg (by simp), List.dropWhile_cons,
          if_pos (by decide), ih true, List.dropWhile_cons, if_pos hc]
    · have hcol : collapseFrom b (c :: cs) = c :: collapseFrom false cs := by
        cases b <;> rw [collapseFrom, if_neg hc]
      rw [hcol, List.dropWhile_cons, if_neg hc, List.dropWhile_cons, if_neg hc,
        collapseFrom, if_neg hc]

theorem collapse_split : ∀ (a : List Char), (∀ c ∈ a, c.isWhitespace = false) →
    ∀ (l r : List Char), collapseFrom false l = a ++ r →
      ∃ r0, l = a ++ r0 ∧ collapseFrom false r0 = r := by
  intro a
  induction a with
  | nil => intro _ l r h; exact ⟨l, rfl, h⟩
  | cons x a' ih =>
    intro ha l r h
    cases l with
    | nil => simp [collapseFrom] at h
    | cons c cs =>
      by_cases hc : c.isWhitespace = true
      · rw [collapseFrom, if_pos hc, if_neg (by simp)] at h
        have hx : x = ' ' := by
          have := congrArg List.head? h
          simpa using this.symm
        have := ha x (List.mem_cons_self x a')
        rw [hx] at this
        simp at this
      · rw [collapseFrom, if_neg hc] at h
        have hcx : c = x := by
          have := congrArg List.head? h
          simpa using this
        have htl : collapseFrom false cs = a' ++ r := by
          have := congrArg List.tail h
          simpa using this
        obtain ⟨r0, hcs, hr0⟩ := ih (fun d hd => ha d (List.mem_cons_of_mem x hd)) cs r htl
        exact ⟨r0, by rw [hcs, hcx, List.cons_append], hr0⟩

theorem take_append_len {α : Type} (a r : List α) (n : Nat) (h : a.length = n) :
    (a ++ r).take n = a := by
  rw [← h]
  exact List.take_left a r

theorem drop_append_len {α : Type} (a r : List α) (n : Nat) (h : a.length = n) :
    (a ++ r).drop n = r := by
  rw [← h]
  exact List.drop_left a r

theorem unitTryMatch_collapse (u : List Char) (hu : ∀ c ∈ u, c.isWhitespace = false)
    (c : Char) (cs : List Char) (hc : c.isDigit = true)
    (h : (unitTryMatch u (c :: collapseFrom false cs)).isSome = true) :
    (unitTryMatch u (c :: cs)).isSome = true := by
  obtain ⟨h1, h2, h3⟩ := (unitTryMatch_isSome_iff u _).mp h
  have hdrop : (c :: collapseFrom false cs).dropWhile Char.isDigit
      = collapseFrom false (cs.dropWhile Char.isDigit) := by
    rw [List.dropWhile_cons, if_pos hc, collapse_dropWhile_digit]
  have ht2 : ((c :: collapseFrom false cs).dropWhile Char.isDigit).dropWhile Char.isWhitespace
      = collapseFrom false ((cs.dropWhile Char.isDigit).dropWhile Char.isWhitespace) := by
    rw [hdrop, collapse_dropWhile_ws]
  set t2 := (cs.dropWhile Char.isDigit).dropWhile Char.isWhitespace with ht2def
  rw [ht2] at h2 h3
  have hans : ∀ d ∈ (collapseFrom false t2).take u.length, d.isWhitespace = false := by
    intro d hd
    by_contra hdc
    rw [Bool.not_eq_false] at hdc
    have hmem : asciiLower d ∈ ((collapseFrom false t2).take u.length).map asciiLower :=
      List.mem_map_of_mem asciiLower hd
    rw [h2, ws_asciiLower hdc] at hmem
    have := hu d hmem
    rw [hdc] at this
    cases this
  have hsplit : collapseFrom false t2
      = (collapseFrom false t2).take u.length ++ (collapseFrom false t2).drop u.length :=
    (List.take_append_drop u.length (collapseFrom false t2)).symm
  obtain ⟨r0, ht2eq, hr0⟩ := collapse_split _ hans t2 _ hsplit
  have hlen : ((collapseFrom false t2).take u.length).length = u.length := by
    have := congrArg List.length h2
    simpa using this
  refine (unitTryMatch_isSome_iff u (c :: cs)).mpr ⟨?_, ?_, ?_⟩
  · rw [List.takeWhile_cons, if_pos hc]
    simp
  · rw [List.dropWhile_cons, if_pos hc, ← ht2def, ht2eq,
      take_append_len _ r0 u.length hlen]
    exact h2
  · rw [List.dropWhile_cons, if_pos hc, ← ht2def, ht2eq,
      drop_append_len _ r0 u.length hlen]
    rw [← hr0] at h3
    cases r0 with
    | nil => rfl
    | cons d ds =>
      by_cases hd : d.isWhitespace = true
      · rw [List.head?_cons]
        exact ws_not_word hd
      · rw [collapseFrom, if_neg hd] at h3
        simpa using h3

theorem hasUnitMatch_collapse (u : List Char) (hu : ∀ c ∈ u, c.isWhitespace = false) :
    ∀ (l : List Char) (pw : Bool) (b : Bool),
      hasUnitMatch u pw (collapseFrom b l) = true → hasUnitMatch u pw l = true := by
  intro l
  induction l with
  | nil =>
    intro pw b h
    rw [show collapseFrom b [] = [] from by cases b <;> rfl] at h
    exact h
  | cons c cs ih =>
    intro pw b h
    by_cases hc : c.isWhitespace = true
    · have hfalse : hasUnitMatch u false (collapseFrom true cs) = true := by
        cases b with
        | true =>
          rw [collapseFrom, if_pos hc, if_pos rfl] at h
          cases pw with
          | false => exact h
          | true => exact hasUnitMatch_mono u _ h
        | false =>
          rw [collapseFrom, if_pos hc, if_neg (by simp)] at h
          rw [hasUnitMatch] at h
          simp only [Bool.or_eq_true] at h
          rcases h with hA | hB
          · exfalso
            simp only [Bool.and_eq_true] at hA
            exact absurd hA.1.2 (by decide)
          · have hw : isWordChar ' ' = false := by decide
            rw [hw] at hB
            exact hB
      have hcs : hasUnitMatch u false cs = true := ih false true hfalse
      rw [hasUnitMatch, ws_not_word hc]
      simp only [Bool.or_eq_true]
      exact Or.inr hcs
    · have hcol : collapseFrom b (c :: cs) = c :: collapseFrom false cs := by
        cases b <;> rw [collapseFrom, if_neg hc]
      rw [hcol, hasUnitMatch] at h
      simp only [Bool.or_eq_true] at h
      rw [hasUnitMatch]
      simp only [Bool.or_eq_true]
      rcases h with hA | hB
      · left
        simp only [Bool.and_eq_true] at hA ⊢
        obtain ⟨⟨hp, hd⟩, hs⟩ := hA
        exact ⟨⟨hp, hd⟩, unitTryMatch_collapse u hu c cs hd hs⟩
      · exact Or.inr (ih (isWordChar c) false hB)

theorem unit_rules_wf : ∀ rule ∈ unit_fixes,
    rule.1.toList ≠ [] ∧ ∀ c ∈ rule.1.toList, c.isWhitespace = false := by
  decide

/-- On input with no markdown characters and no unit-token match, the
first four passes of `correct_response` are the identity, so the result
is just whitespace collapsing followed by strip. -/
theorem correct_response_clean (t : String) (ht : t ≠ "")
    (hstar : ∀ c ∈ t.toList, c ≠ '*')
    (htick : ∀ c ∈ t.toList, c ≠ backtickChar)
    (hhash : ∀ c ∈ t.toList, c ≠ '#')
    (hunit : ∀ rule ∈ unit_fixes, hasUnitMatch rule.1.toList false t.toList = false) :
    correct_response t = String.mk (stripList (collapseWs t.toList)) := by
  simp only [correct_response]
  rw [if_neg ht, subBoldAux_id _ _ hstar, subStarAux_id _ _ hstar, subTickAux_id _ _ htick,
    subHeaderAux_id _ _ hhash, applyUnitFixes_id _ hunit]

/-- C8: for every input string containing no markdown emphasis, header or
code-tick characters and no numeric unit-abbreviation token, applying
`MinimalSafeCorrector.correct_response` twice gives the same result as
applying it once (lines 62-93 of minimal_safe_corrector.py). -/
theorem correct_response_idempotent (t : String)
    (hstar : ∀ c ∈ t.toList, c ≠ '*')
    (htick : ∀ c ∈ t.toList, c ≠ backtickChar)
    (hhash : ∀ c ∈ t.toList, c ≠ '#')
    (hunit : ∀ rule ∈ unit_fixes, hasUnitMatch rule.1.toList false t.toList = false) :
    correct_response (correct_response t) = correct_response t := by
  by_cases ht : t = ""
  · subst ht
    rfl
  · rw [correct_response_clean t ht hstar htick hhash hunit]
    set rl := stripList (collapseWs t.toList) with hrl
    by_cases hempty : String.mk rl = ""
    · rw [hempty]
      rfl
    · have htl : (String.mk rl).toList = rl := rfl
      have hmem : ∀ c ∈ rl, c = ' ' ∨ c ∈ t.toList := by
        intro c hc
        exact mem_collapseFrom _ _ (mem_stripList _ hc)
      have hstar2 : ∀ c ∈ (String.mk rl).toList, c ≠ '*' := by
        intro c hc
        rcases hmem c (htl ▸ hc) with rfl | hct
        · decide
        · exact hstar c hct
      have htick2 : ∀ c ∈ (String.mk rl).toList, c ≠ backtickChar := by
        intro c hc
        rcases hmem c (htl ▸ hc) with rfl | hct
        · decide
        · exact htick c hct
      have hhash2 : ∀ c ∈ (String.mk rl).toList, c ≠ '#' := by
        intro c hc
        rcases hmem c (htl ▸ hc) with rfl | hct
        · decide
        · exact hhash c hct
      have hunit2 : ∀ rule ∈ unit_fixes,
          hasUnitMatch rule.1.toList false (String.mk rl).toList = false := by
        intro rule hr
        rw [htl]
        by_contra hcon
        rw [Bool.not_eq_false] at hcon
        obtain ⟨hne, hnws⟩ := unit_rules_wf rule hr
        rw [hrl] at hcon
        unfold stripList collapseWs at hcon
        have h1 := hasUnitMatch_rstrip _ hne _ _ hcon
        rw [collapse_dropWhile_ws t.toList false] at h1
        have h3 := hasUnitMatch_collapse _ hnws _ _ _ h1
        have h4 := hasUnitMatch_lstrip _ _ h3
        rw [hunit rule hr] at h4
        exact absurd h4 Bool.false_ne_true
      rw [correct_response_clean (String.mk rl) hempty hstar2 htick2 hhash2 hunit2, htl]
      have hall : allWsSpace rl := by
        intro c hc hwc
        exact allWsSpace_collapseFrom t.toList false c (mem_stripList _ hc) hwc
      have hnt : noTwoWs rl := by
        rw [hrl]
        unfold stripList collapseWs
        exact noTwoWs_rstripList _ (noTwoWs_dropWhile _ (noTwoWs_collapseFrom t.toList false))
      have hcol : collapseWs rl = rl := by
        unfold collapseWs
        exact collapseFrom_id rl hall hnt
      have hstr : stripList rl = rl := by
        rw [hrl]
        exact stripList_stable _
      rw [hcol, hstr]

/-- Concrete instance of the C8 idempotence theorem. -/
theorem correct_response_idempotent_witness :
    correct_response (correct_response "hello   world") = correct_response "hello   world" :=
  correct_response_idempotent "hello   world" (by decide) (by decide) (by decide) (by decide)

end VoiceAgent

